import Mathlib

/-!
# The `TimeAgo` hook of `assets/js/hooks.js`

A shallow embedding of the hook object `TimeAgo` (methods `mounted`, `updated`,
`destroyed`, `updateTime`, `calculateTimeAgo`) together with the part of the
host it talks to: the element it is bound to, the clock, the table of
repeating timers behind `setInterval` / `clearInterval`, and the console.

Conventions of the embedding.

* A JavaScript time value is an integral number of milliseconds; `Date`
  objects are represented by their time value (`Int`), the invalid date (time
  value `NaN`) by `none`. The elapsed seconds
  `Math.floor((now - datetime) / 1000)` are the integer floor division of the
  difference by 1000: on differences below `2 ^ 53` in size the
  double-precision computation is that quotient exactly, and beyond that size
  both fall in the same row of the table.
* The host's date parser behind `new Date(string)` is a parameter
  `parse : String → Option Int`.
* Timer handles are the positive integers handed out by the host, one after
  the other; `undefined` for the field `this.interval` is `none`.
* Every method returns in `Except JsError`, the error case standing for a
  thrown exception that reaches the caller.
-/

namespace TimeAgo

/-! ## Values -/

/-- A thrown JavaScript value. -/
structure JsError where
  message : String
deriving DecidableEq, Repr

/-- Console channels. -/
inductive LogLevel where
  | info
  | warn
  | error
deriving DecidableEq, Repr

/-- One console call: its channel and its arguments, rendered as text. -/
structure LogEntry where
  level : LogLevel
  args : List String
deriving DecidableEq, Repr

/-- Template-literal rendering of an integral number. -/
def decimal (n : Int) : String :=
  toString n

/-! ## `calculateTimeAgo` (hooks.js, lines 37-64) -/

/-- The method `calculateTimeAgo(datetime)`, with `now` the time value of the
`new Date()` read on its first line. -/
def calculateTimeAgo (now datetime : Int) : String :=
  let diffInSeconds := Int.fdiv (now - datetime) 1000
  if diffInSeconds < 0 then
    "in the future"
  else if diffInSeconds < 5 then
    "just now"
  else if diffInSeconds < 60 then
    decimal diffInSeconds ++ "s ago"
  else
    let diffInMinutes := Int.fdiv diffInSeconds 60
    if diffInMinutes < 60 then
      decimal diffInMinutes ++ "m ago"
    else
      "a while ago"

/-- The elapsed-time table of the specification (section 4.1), row by row,
as a function of the elapsed seconds `d`. -/
def tableText (d : Int) : String :=
  if d < 0 then "in the future"
  else if 0 ≤ d ∧ d < 5 then "just now"
  else if 5 ≤ d ∧ d < 60 then decimal d ++ "s ago"
  else if 60 ≤ d ∧ d < 3600 then decimal (Int.fdiv d 60) ++ "m ago"
  else "a while ago"

/-- Elapsed whole seconds between a time value and the clock. -/
def elapsedSeconds (now datetime : Int) : Int :=
  Int.fdiv (now - datetime) 1000

/-! ## The element, the instance and the host -/

/-- A hook instance with the element it is bound to: `el.dataset.timestamp`
(`none` when the attribute is absent), `el.textContent`, and the field
`this.interval` (`none` while it is `undefined`). -/
structure Widget where
  timestamp : Option String
  textContent : String
  interval : Option Nat
deriving DecidableEq, Repr

/-- An active repeating timer of the host: its handle, the instance whose
`updateTime` its callback calls, and its period in milliseconds. -/
structure Timer where
  handle : Nat
  owner : Nat
  period : Nat
deriving DecidableEq, Repr

/-- The page: the hook instances (by number), the host's table of active
repeating timers, the count of handles handed out so far, the clock in
milliseconds, and the console. -/
structure Sys where
  widgets : Nat → Widget
  timers : List Timer
  issued : Nat
  now : Int
  log : List LogEntry

/-- Host `setInterval(callback, period)`, the callback being that of instance
`owner`: registers the timer under the next handle, which is positive, and
returns that handle. -/
def setInterval (s : Sys) (owner period : Nat) : Nat × Sys :=
  (s.issued + 1,
    { s with
      timers := s.timers ++ [{ handle := s.issued + 1, owner := owner, period := period }]
      issued := s.issued + 1 })

/-- Host `clearInterval(handle)`: removes the timer with that handle, if there
is one. -/
def clearInterval (s : Sys) (h : Nat) : Sys :=
  { s with timers := s.timers.filter (fun t => t.handle != h) }

/-- Host `console.warn(...args)`. -/
def consoleWarn (s : Sys) (args : List String) : Sys :=
  { s with log := s.log ++ [{ level := LogLevel.warn, args := args }] }

/-- Host `new Date(string)`: it does not throw; a string the parser does not
recognise gives the invalid date. -/
def newDate (parse : String → Option Int) (str : String) : Except JsError (Option Int) :=
  pure (parse str)

/-- The assignment `el.textContent = text` on the element of instance `w`. -/
def setTextContent (s : Sys) (w : Nat) (text : String) : Except JsError Sys :=
  pure { s with widgets := Function.update s.widgets w { s.widgets w with textContent := text } }

/-- The statement `try { body } catch (error) { handler }`. -/
def attempt {α : Type} (body : Except JsError α) (handler : JsError → Except JsError α) :
    Except JsError α :=
  match body with
  | Except.ok a => Except.ok a
  | Except.error e => handler e

/-- JavaScript truthiness of a handle read from `this.interval`. -/
def truthyHandle : Option Nat → Bool
  | none => false
  | some h => h != 0

/-! ## The methods of `TimeAgo` (hooks.js, lines 1-35) -/

/-- The method `updateTime()` of instance `w`. The guard of line 20 is
`timestamp && timestamp !== "null" && timestamp !== "undefined"`: an absent
attribute and the empty string are falsy. -/
def updateTime (parse : String → Option Int) (s : Sys) (w : Nat) : Except JsError Sys :=
  match (s.widgets w).timestamp with
  | none => pure s
  | some timestamp =>
    if timestamp ≠ "" ∧ timestamp ≠ "null" ∧ timestamp ≠ "undefined" then
      attempt
        (do
          let datetime ← newDate parse timestamp
          match datetime with
          | some t =>
            let timeAgo := calculateTimeAgo s.now t
            setTextContent s w timeAgo
          | none => pure s)
        (fun error =>
          pure (consoleWarn s
            ["TimeAgo hook: Invalid timestamp format:", timestamp, error.message]))
    else
      pure s

/-- The method `mounted()` of instance `w`. -/
def mounted (parse : String → Option Int) (s : Sys) (w : Nat) : Except JsError Sys := do
  let s1 ← updateTime parse s w
  let r := setInterval s1 w 1000
  pure { r.2 with
    widgets := Function.update r.2.widgets w { r.2.widgets w with interval := some r.1 } }

/-- The method `updated()` of instance `w`. -/
def updated (parse : String → Option Int) (s : Sys) (w : Nat) : Except JsError Sys :=
  updateTime parse s w

/-- The method `destroyed()` of instance `w`. -/
def destroyed (s : Sys) (w : Nat) : Except JsError Sys :=
  if truthyHandle (s.widgets w).interval then
    match (s.widgets w).interval with
    | some h => pure (clearInterval s h)
    | none => pure s
  else
    pure s

/-- One firing of the timer with handle `h`: if it is active, its callback
`() => this.updateTime()` runs on the instance that created it; a handle with
no active timer fires nothing. -/
def fire (parse : String → Option Int) (s : Sys) (h : Nat) : Except JsError Sys :=
  match s.timers.find? (fun t => t.handle == h) with
  | some t => updateTime parse s t.owner
  | none => pure s

/-! ## Runs of the page -/

/-- What can happen on the page. -/
inductive Event where
  | attach (w : Nat)
  | externalUpdate (w : Nat)
  | detach (w : Nat)
  | tick (h : Nat)
  | advance (ms : Nat)
  | setTimestamp (w : Nat) (v : Option String)
deriving DecidableEq, Repr

/-- The effect of one event. -/
def step (parse : String → Option Int) (s : Sys) : Event → Except JsError Sys
  | Event.attach w => mounted parse s w
  | Event.externalUpdate w => updated parse s w
  | Event.detach w => destroyed s w
  | Event.tick h => fire parse s h
  | Event.advance ms => pure { s with now := s.now + ms }
  | Event.setTimestamp w v =>
    pure { s with widgets := Function.update s.widgets w { s.widgets w with timestamp := v } }

/-- The effect of a sequence of events, stopping at the first exception. -/
def run (parse : String → Option Int) (s : Sys) : List Event → Except JsError Sys
  | [] => pure s
  | e :: es =>
    match step parse s e with
    | Except.ok s1 => run parse s1 es
    | Except.error err => Except.error err

/-- A page on which no instance has been attached yet: no timer exists and no
instance holds a handle. -/
def fresh (attrs : Nat → Option String) (texts : Nat → String) (now : Int) : Sys :=
  { widgets := fun w => { timestamp := attrs w, textContent := texts w, interval := none }
    timers := []
    issued := 0
    now := now
    log := [] }

/-- The active timers created by instance `w`. -/
def ownedTimers (s : Sys) (w : Nat) : List Timer :=
  s.timers.filter (fun t => t.owner == w)

/-- Whether an event is a clock advance or a timer-tick opportunity. -/
def Event.passive : Event → Bool
  | Event.tick _ => true
  | Event.advance _ => true
  | _ => false

/-- The number of `attach` events of instance `w` in a sequence. -/
def attachCount (w : Nat) (es : List Event) : Nat :=
  es.count (Event.attach w)

/-- Whether, along the run of a sequence of events from a state, every attach
of instance `w` happens while no timer created by `w` is active. -/
def attachOnlyIdle (parse : String → Option Int) (w : Nat) : Sys → List Event → Bool
  | _, [] => true
  | s, e :: es =>
    (e != Event.attach w || (ownedTimers s w).isEmpty) &&
      match step parse s e with
      | Except.ok s1 => attachOnlyIdle parse w s1 es
      | Except.error _ => true

/-- A fragment of the host's date parser, enough to run examples: two UTC
instants in ISO form; every other string is taken as unrecognised. -/
def sampleParse : String → Option Int
  | "1970-01-01T00:00:00.000Z" => some 0
  | "1970-01-01T00:00:10.000Z" => some 10000
  | _ => none

/-- The text a render of instance `w` would write, if it writes one. -/
def renderedText (parse : String → Option Int) (s : Sys) (w : Nat) : Option String :=
  match (s.widgets w).timestamp with
  | none => none
  | some timestamp =>
    if timestamp ≠ "" ∧ timestamp ≠ "null" ∧ timestamp ≠ "undefined" then
      (parse timestamp).map (calculateTimeAgo s.now)
    else
      none

/-- The page with the text of instance `w` replaced. -/
def withText (s : Sys) (w : Nat) (text : String) : Sys :=
  { s with widgets := Function.update s.widgets w { s.widgets w with textContent := text } }

/-- The page after a render of instance `w`. -/
def afterRender (parse : String → Option Int) (s : Sys) (w : Nat) : Sys :=
  match renderedText parse s w with
  | some text => withText s w text
  | none => s

/-- Every active timer created by instance `w` carries the handle stored on
`w`, and that handle is positive. -/
def TimersStored (s : Sys) (w : Nat) : Prop :=
  ∀ t ∈ s.timers, t.owner = w → t.handle ≠ 0 ∧ (s.widgets w).interval = some t.handle

/-- Handles in use were handed out by the host, and a handle stored on an
instance names no timer of another instance. -/
def HandlesOwned (s : Sys) : Prop :=
  (∀ t ∈ s.timers, t.handle ≤ s.issued) ∧
  (∀ w h, (s.widgets w).interval = some h →
    h ≤ s.issued ∧ ∀ t ∈ s.timers, t.handle = h → t.owner = w)

/-- The timer with handle `h` is active and its callback belongs to
instance `w`. -/
def TimerActive (s : Sys) (h w : Nat) : Prop :=
  ∃ t, s.timers.find? (fun t => t.handle == h) = some t ∧ t.owner = w

/-- The repeating timer that `mounted` of instance `w` registers under
handle `h`. -/
def mountedTimer (h w : Nat) : Timer :=
  { handle := h, owner := w, period := 1000 }

/-- The number written by a list of decimal digits, most significant first. -/
def digitsValue (cs : List Char) : Nat :=
  cs.foldl (fun acc c => 10 * acc + (c.toNat - 48)) 0

/-- The integer written by a decimal rendering with an optional minus sign. -/
def readDecimal (cs : List Char) : Int :=
  if cs.head? = some '-' then - (digitsValue cs.tail : Int) else (digitsValue cs : Int)

/-! ## Facts about `calculateTimeAgo` -/

theorem calculateTimeAgo_eq_tableText (now datetime : Int) :
    calculateTimeAgo now datetime = tableText (elapsedSeconds now datetime) := by
  unfold calculateTimeAgo tableText elapsedSeconds
  simp only [Int.fdiv_eq_ediv _ (by decide : (0 : Int) ≤ 1000),
    Int.fdiv_eq_ediv _ (by decide : (0 : Int) ≤ 60)]
  generalize (now - datetime) / 1000 = d
  by_cases h0 : d < 0
  · simp [h0]
  · by_cases h5 : d < 5
    · have : 0 ≤ d := by omega
      simp [h0, h5, this]
    · by_cases h60 : d < 60
      · have : 5 ≤ d := by omega
        simp [h0, h5, h60, this]
      · have a1 : ¬ (5 ≤ d ∧ d < 60) := by omega
        have a2 : ¬ (0 ≤ d ∧ d < 5) := by omega
        by_cases hm : d / 60 < 60
        · have : 60 ≤ d ∧ d < 3600 := by omega
          simp [h0, h5, h60, hm, this]
        · have : ¬ (60 ≤ d ∧ d < 3600) := by omega
          simp [h0, h5, h60, hm, this]

/-- C1. With `d = floor((now - t) / 1000)`, `calculateTimeAgo` returns
"in the future" for `d < 0`, "just now" for `0 ≤ d < 5`, the decimal of `d`
followed by "s ago" for `5 ≤ d < 60`, the decimal of `floor(d / 60)` followed
by "m ago" for `60 ≤ d < 3600`, and "a while ago" for `d ≥ 3600`; at
`d = -1, 0, 4, 5, 59, 60, 3599, 3600` the texts are "in the future",
"just now", "just now", "5s ago", "59s ago", "1m ago", "59m ago",
"a while ago". -/
theorem calculateTimeAgo_table (now t : Int) :
    (Int.fdiv (now - t) 1000 < 0 → calculateTimeAgo now t = "in the future") ∧
    (0 ≤ Int.fdiv (now - t) 1000 ∧ Int.fdiv (now - t) 1000 < 5 →
      calculateTimeAgo now t = "just now") ∧
    (5 ≤ Int.fdiv (now - t) 1000 ∧ Int.fdiv (now - t) 1000 < 60 →
      calculateTimeAgo now t = decimal (Int.fdiv (now - t) 1000) ++ "s ago") ∧
    (60 ≤ Int.fdiv (now - t) 1000 ∧ Int.fdiv (now - t) 1000 < 3600 →
      calculateTimeAgo now t
        = decimal (Int.fdiv (Int.fdiv (now - t) 1000) 60) ++ "m ago") ∧
    (3600 ≤ Int.fdiv (now - t) 1000 → calculateTimeAgo now t = "a while ago") ∧
    (Int.fdiv (now - t) 1000 = -1 → calculateTimeAgo now t = "in the future") ∧
    (Int.fdiv (now - t) 1000 = 0 → calculateTimeAgo now t = "just now") ∧
    (Int.fdiv (now - t) 1000 = 4 → calculateTimeAgo now t = "just now") ∧
    (Int.fdiv (now - t) 1000 = 5 → calculateTimeAgo now t = "5s ago") ∧
    (Int.fdiv (now - t) 1000 = 59 → calculateTimeAgo now t = "59s ago") ∧
    (Int.fdiv (now - t) 1000 = 60 → calculateTimeAgo now t = "1m ago") ∧
    (Int.fdiv (now - t) 1000 = 3599 → calculateTimeAgo now t = "59m ago") ∧
    (Int.fdiv (now - t) 1000 = 3600 → calculateTimeAgo now t = "a while ago") := by
  rw [calculateTimeAgo_eq_tableText]
  unfold elapsedSeconds
  generalize Int.fdiv (now - t) 1000 = d
  refine ⟨?_, ?_, ?_, ?_, ?_, ?_, ?_, ?_, ?_, ?_, ?_, ?_, ?_⟩
  · intro h
    simp [tableText, h]
  · intro h
    have h0 : ¬ d < 0 := by omega
    simp [tableText, h0, h]
  · intro h
    have h0 : ¬ d < 0 := by omega
    have h1 : ¬ (0 ≤ d ∧ d < 5) := by omega
    simp only [tableText, h0, h1, h, if_false, if_true, and_self]
  · intro h
    have h0 : ¬ d < 0 := by omega
    have h1 : ¬ (0 ≤ d ∧ d < 5) := by omega
    have h2 : ¬ (5 ≤ d ∧ d < 60) := by omega
    simp only [tableText, h0, h1, h2, h, if_false, if_true, and_self]
  · intro h
    have h0 : ¬ d < 0 := by omega
    have h1 : ¬ (0 ≤ d ∧ d < 5) := by omega
    have h2 : ¬ (5 ≤ d ∧ d < 60) := by omega
    have h3 : ¬ (60 ≤ d ∧ d < 3600) := by omega
    simp only [tableText, h0, h1, h2, h3, if_false]
  all_goals
    intro h
    subst h
    decide

/-- The table read at a concrete pair: a timestamp 10000 ms old. -/
theorem calculateTimeAgo_table_witness :
    (5 ≤ Int.fdiv (10000 - 0) 1000 ∧ Int.fdiv (10000 - 0) 1000 < 60) ∧
    calculateTimeAgo 10000 0 = decimal (Int.fdiv (10000 - 0) 1000) ++ "s ago" :=
  ⟨by decide, (calculateTimeAgo_table 10000 0).2.2.1 (by decide)⟩

/-! ## What each method computes -/

theorem updateTime_eq (parse : String → Option Int) (s : Sys) (w : Nat) :
    updateTime parse s w = Except.ok (afterRender parse s w) := by
  unfold updateTime afterRender renderedText
  cases hts : (s.widgets w).timestamp with
  | none => rfl
  | some ts =>
    by_cases hg : ts ≠ "" ∧ ts ≠ "null" ∧ ts ≠ "undefined"
    · simp only [if_pos hg]
      cases hp : parse ts with
      | none => simp [attempt, newDate, hp, pure, Except.pure, bind, Except.bind]
      | some t =>
        simp [attempt, newDate, hp, pure, Except.pure, bind, Except.bind, setTextContent,
          withText]
    · simp only [hg, if_false]
      rfl

theorem afterRender_timers (parse : String → Option Int) (s : Sys) (w : Nat) :
    (afterRender parse s w).timers = s.timers := by
  unfold afterRender
  cases renderedText parse s w <;> rfl

theorem afterRender_issued (parse : String → Option Int) (s : Sys) (w : Nat) :
    (afterRender parse s w).issued = s.issued := by
  unfold afterRender
  cases renderedText parse s w <;> rfl

theorem afterRender_now (parse : String → Option Int) (s : Sys) (w : Nat) :
    (afterRender parse s w).now = s.now := by
  unfold afterRender
  cases renderedText parse s w <;> rfl

theorem afterRender_log (parse : String → Option Int) (s : Sys) (w : Nat) :
    (afterRender parse s w).log = s.log := by
  unfold afterRender
  cases renderedText parse s w <;> rfl

theorem afterRender_interval (parse : String → Option Int) (s : Sys) (w v : Nat) :
    ((afterRender parse s w).widgets v).interval = (s.widgets v).interval := by
  unfold afterRender
  cases renderedText parse s w with
  | none => rfl
  | some x =>
    by_cases hv : v = w
    · subst hv
      simp [withText]
    · simp [withText, Function.update_noteq hv]

theorem afterRender_timestamp (parse : String → Option Int) (s : Sys) (w v : Nat) :
    ((afterRender parse s w).widgets v).timestamp = (s.widgets v).timestamp := by
  unfold afterRender
  cases renderedText parse s w with
  | none => rfl
  | some x =>
    by_cases hv : v = w
    · subst hv
      simp [withText]
    · simp [withText, Function.update_noteq hv]

theorem afterRender_other (parse : String → Option Int) (s : Sys) (w v : Nat) (hv : v ≠ w) :
    (afterRender parse s w).widgets v = s.widgets v := by
  unfold afterRender
  cases renderedText parse s w with
  | none => rfl
  | some x => simp [withText, Function.update_noteq hv]

theorem renderedText_afterRender (parse : String → Option Int) (s : Sys) (w : Nat) :
    renderedText parse (afterRender parse s w) w = renderedText parse s w := by
  unfold renderedText
  rw [afterRender_timestamp, afterRender_now]

theorem withText_withText (s : Sys) (w : Nat) (x y : String) :
    withText (withText s w x) w y = withText s w y := by
  simp [withText]

theorem afterRender_idem (parse : String → Option Int) (s : Sys) (w : Nat) :
    afterRender parse (afterRender parse s w) w = afterRender parse s w := by
  have h := renderedText_afterRender parse s w
  cases hr : renderedText parse s w with
  | none =>
    have e : afterRender parse s w = s := by simp [afterRender, hr]
    rw [e, e]
  | some x =>
    have e : afterRender parse s w = withText s w x := by simp [afterRender, hr]
    rw [hr, e] at h
    rw [e]
    simp only [afterRender, h]
    exact withText_withText s w x x

theorem afterRender_valid (parse : String → Option Int) (s : Sys) (w : Nat) (ts : String)
    (t : Int) (hts : (s.widgets w).timestamp = some ts) (h1 : ts ≠ "") (h2 : ts ≠ "null")
    (h3 : ts ≠ "undefined") (hp : parse ts = some t) :
    afterRender parse s w = withText s w (calculateTimeAgo s.now t) := by
  simp [afterRender, renderedText, hts, h1, h2, h3, hp]

theorem mounted_eq (parse : String → Option Int) (s : Sys) (w : Nat) :
    mounted parse s w = Except.ok
      { afterRender parse s w with
        widgets := Function.update (afterRender parse s w).widgets w
          { (afterRender parse s w).widgets w with
            interval := some ((afterRender parse s w).issued + 1) }
        timers := (afterRender parse s w).timers ++
          [{ handle := (afterRender parse s w).issued + 1, owner := w, period := 1000 }]
        issued := (afterRender parse s w).issued + 1 } := by
  unfold mounted
  rw [updateTime_eq]
  rfl

theorem destroyed_eq (s : Sys) (w : Nat) :
    destroyed s w = Except.ok
      (match (s.widgets w).interval with
        | some h => if h = 0 then s else clearInterval s h
        | none => s) := by
  unfold destroyed
  cases hi : (s.widgets w).interval with
  | none => simp [truthyHandle]; rfl
  | some h =>
    by_cases h0 : h = 0
    · simp [truthyHandle, h0]; rfl
    · simp [truthyHandle, h0]; rfl

theorem fire_eq (parse : String → Option Int) (s : Sys) (h : Nat) :
    fire parse s h = Except.ok
      (match s.timers.find? (fun t => t.handle == h) with
        | some t => afterRender parse s t.owner
        | none => s) := by
  unfold fire
  cases s.timers.find? (fun t => t.handle == h) with
  | none => rfl
  | some t => simp [updateTime_eq]

/-! ## Renders -/

/-- C2. On an element carrying a valid timestamp (present, not a sentinel,
parsed to the instant `t`), `mounted` returns and the element text is then the
table entry of the elapsed seconds at that clock time, whatever it was before;
for a timestamp exactly 10000 ms before the clock the text is "10s ago". -/
theorem mounted_renders_immediately (parse : String → Option Int) (s : Sys) (w : Nat)
    (ts : String) (t : Int) (hts : (s.widgets w).timestamp = some ts) (h1 : ts ≠ "")
    (h2 : ts ≠ "null") (h3 : ts ≠ "undefined") (hp : parse ts = some t) :
    ∃ s', mounted parse s w = Except.ok s' ∧
      (s'.widgets w).textContent = tableText (elapsedSeconds s.now t) ∧
      (t = s.now - 10000 → (s'.widgets w).textContent = "10s ago") := by
  refine ⟨_, mounted_eq parse s w, ?_, ?_⟩
  · simp [afterRender_valid parse s w ts t hts h1 h2 h3 hp, withText,
      calculateTimeAgo_eq_tableText]
  · intro ht
    subst ht
    have e : calculateTimeAgo s.now (s.now - 10000) = "10s ago" := by
      have h : s.now - (s.now - 10000) = 10000 := by omega
      unfold calculateTimeAgo
      rw [h]
      decide
    simp [afterRender_valid parse s w ts _ hts h1 h2 h3 hp, withText, e]

/-- An element stamped 10 s before the clock reads "10s ago" right after
`mounted`, although it read "stale" before. -/
theorem mounted_renders_immediately_witness :
    ∃ s', mounted sampleParse
        (fresh (fun _ => some "1970-01-01T00:00:10.000Z") (fun _ => "stale") 20000) 0
          = Except.ok s' ∧
      (s'.widgets 0).textContent = "10s ago" :=
  match mounted_renders_immediately sampleParse
      (fresh (fun _ => some "1970-01-01T00:00:10.000Z") (fun _ => "stale") 20000) 0
      "1970-01-01T00:00:10.000Z" 10000 rfl (by decide) (by decide) (by decide) rfl with
  | ⟨s', h, _, h10⟩ => ⟨s', h, h10 (by decide)⟩

/-- C3. When the timestamp attribute is absent, or is the string "null" or
"undefined", `updateTime` returns without raising, leaves the element text as
it was and writes nothing to the console; the whole page is unchanged. -/
theorem updateTime_sentinel_skips (parse : String → Option Int) (s : Sys) (w : Nat)
    (h : (s.widgets w).timestamp = none ∨ (s.widgets w).timestamp = some "null" ∨
      (s.widgets w).timestamp = some "undefined") :
    ∃ s', updateTime parse s w = Except.ok s' ∧
      (s'.widgets w).textContent = (s.widgets w).textContent ∧ s'.log = s.log ∧ s' = s := by
  have e : afterRender parse s w = s := by
    rcases h with h | h | h <;> simp [afterRender, renderedText, h]
  exact ⟨_, updateTime_eq parse s w, by rw [e], by rw [e], e⟩

/-- The sentinel "null" on an element reading "old": the render changes
nothing. -/
theorem updateTime_sentinel_skips_witness :
    ∃ s', updateTime sampleParse (fresh (fun _ => some "null") (fun _ => "old") 0) 0
        = Except.ok s' ∧
      (s'.widgets 0).textContent = "old" ∧ s'.log = [] :=
  match updateTime_sentinel_skips sampleParse
      (fresh (fun _ => some "null") (fun _ => "old") 0) 0 (Or.inr (Or.inl rfl)) with
  | ⟨s', h, ht, hl, _⟩ => ⟨s', h, ht, hl⟩

/-- C4, as the code behaves. For a timestamp string the parser does not
recognise, `updateTime` returns, leaves the element text as it was, and the
console is exactly as before: no warning is written, because `new Date` gives
the invalid date instead of throwing and the `catch` block is never entered. -/
theorem updateTime_malformed_silent (parse : String → Option Int) (s : Sys) (w : Nat)
    (ts : String) (hts : (s.widgets w).timestamp = some ts) (hp : parse ts = none) :
    ∃ s', updateTime parse s w = Except.ok s' ∧
      (s'.widgets w).textContent = (s.widgets w).textContent ∧ s'.log = s.log := by
  have e : afterRender parse s w = s := by
    simp [afterRender, renderedText, hts, hp]
  exact ⟨_, updateTime_eq parse s w, by rw [e], by rw [e]⟩

/-- The string "not-a-date" on an element reading "old": the text stays and
the console stays empty. -/
theorem updateTime_malformed_silent_witness :
    ∃ s', updateTime sampleParse (fresh (fun _ => some "not-a-date") (fun _ => "old") 0) 0
        = Except.ok s' ∧
      (s'.widgets 0).textContent = "old" ∧ s'.log = [] :=
  updateTime_malformed_silent sampleParse
    (fresh (fun _ => some "not-a-date") (fun _ => "old") 0) 0 "not-a-date" rfl rfl

/-- C5. Whatever the timestamp attribute, the page and the clock, `mounted`,
`updated`, `destroyed` and a timer tick each return a page: none of them
raises to its caller. -/
theorem lifecycle_never_raises (parse : String → Option Int) (s : Sys) (w h : Nat) :
    (∃ s', mounted parse s w = Except.ok s') ∧
    (∃ s', updated parse s w = Except.ok s') ∧
    (∃ s', destroyed s w = Except.ok s') ∧
    (∃ s', fire parse s h = Except.ok s') :=
  ⟨⟨_, mounted_eq parse s w⟩, ⟨_, updateTime_eq parse s w⟩, ⟨_, destroyed_eq s w⟩,
    ⟨_, fire_eq parse s h⟩⟩

/-- C8. Calling `updated` a second time, the timestamp attribute and the clock
being what they were, gives back the page the first call produced: the same
element text and the same whole state. -/
theorem updated_idempotent (parse : String → Option Int) (s : Sys) (w : Nat) :
    ∃ s1, updated parse s w = Except.ok s1 ∧
      (s1.widgets w).timestamp = (s.widgets w).timestamp ∧ s1.now = s.now ∧
      updated parse s1 w = Except.ok s1 := by
  refine ⟨afterRender parse s w, updateTime_eq parse s w, afterRender_timestamp parse s w w,
    afterRender_now parse s w, ?_⟩
  unfold updated
  rw [updateTime_eq, afterRender_idem]

/-- C10. `updated` returns a page with the same table of active timers, the
same stored handle on every instance and the same handle counter; the page
differs from the one before at most in the text of the element of `w`. -/
theorem updated_leaves_timer (parse : String → Option Int) (s : Sys) (w : Nat) :
    ∃ s', updated parse s w = Except.ok s' ∧
      s'.timers = s.timers ∧
      (∀ v, (s'.widgets v).interval = (s.widgets v).interval) ∧
      s'.issued = s.issued ∧
      ∃ text, s' = withText s w text := by
  refine ⟨afterRender parse s w, updateTime_eq parse s w, afterRender_timers parse s w,
    afterRender_interval parse s w, afterRender_issued parse s w, ?_⟩
  unfold afterRender
  cases renderedText parse s w with
  | some x => exact ⟨x, rfl⟩
  | none =>
    refine ⟨(s.widgets w).textContent, ?_⟩
    simp [withText]

/-! ## Runs -/

theorem step_total (parse : String → Option Int) (s : Sys) (e : Event) :
    ∃ s', step parse s e = Except.ok s' := by
  cases e with
  | attach v => exact ⟨_, mounted_eq parse s v⟩
  | externalUpdate v => exact ⟨_, updateTime_eq parse s v⟩
  | detach v => exact ⟨_, destroyed_eq s v⟩
  | tick h => exact ⟨_, fire_eq parse s h⟩
  | advance ms => exact ⟨_, rfl⟩
  | setTimestamp v x => exact ⟨_, rfl⟩

theorem run_total (parse : String → Option Int) (es : List Event) :
    ∀ s : Sys, ∃ s', run parse s es = Except.ok s' := by
  induction es with
  | nil => intro s; exact ⟨s, rfl⟩
  | cons e es ih =>
    intro s
    obtain ⟨s1, h1⟩ := step_total parse s e
    obtain ⟨s2, h2⟩ := ih s1
    exact ⟨s2, by simp [run, h1, h2]⟩

theorem run_cons (parse : String → Option Int) (s s1 : Sys) (e : Event) (es : List Event)
    (h : step parse s e = Except.ok s1) : run parse s (e :: es) = run parse s1 es := by
  simp [run, h]

theorem run_append (parse : String → Option Int) (es1 es2 : List Event) :
    ∀ s s1 : Sys, run parse s es1 = Except.ok s1 →
      run parse s (es1 ++ es2) = run parse s1 es2 := by
  induction es1 with
  | nil =>
    intro s s1 h
    simp only [run, pure, Except.pure, Except.ok.injEq] at h
    subst h
    rfl
  | cons e es ih =>
    intro s s1 h
    obtain ⟨s0, h0⟩ := step_total parse s e
    rw [run_cons parse s s0 e es h0] at h
    rw [List.cons_append, run_cons parse s s0 e _ h0]
    exact ih s0 s1 h

/-- A property kept by every step of a sequence holds at its end. -/
theorem run_preserves (parse : String → Option Int) (P : Sys → Prop) (es : List Event)
    (hstep : ∀ s s1 e, e ∈ es → P s → step parse s e = Except.ok s1 → P s1) :
    ∀ s s' : Sys, P s → run parse s es = Except.ok s' → P s' := by
  induction es with
  | nil =>
    intro s s' hP h
    simp only [run, pure, Except.pure, Except.ok.injEq] at h
    subst h
    exact hP
  | cons e es ih =>
    intro s s' hP h
    obtain ⟨s0, h0⟩ := step_total parse s e
    rw [run_cons parse s s0 e es h0] at h
    exact ih (fun a b x hx => hstep a b x (List.mem_cons_of_mem _ hx)) s0 s'
      (hstep s s0 e (List.mem_cons_self _ _) hP h0) h

/-! ## Timers of an instance -/

theorem ownedTimers_clearInterval_le (s : Sys) (h w : Nat) :
    (ownedTimers (clearInterval s h) w).length ≤ (ownedTimers s w).length := by
  unfold ownedTimers clearInterval
  exact ((List.filter_sublist s.timers).filter _).length_le

theorem ownedTimers_afterRender (parse : String → Option Int) (s : Sys) (v w : Nat) :
    ownedTimers (afterRender parse s v) w = ownedTimers s w := by
  unfold ownedTimers
  rw [afterRender_timers]

theorem step_attach (parse : String → Option Int) (s s1 : Sys) (v : Nat)
    (h : step parse s (Event.attach v) = Except.ok s1) :
    s1.timers = s.timers ++ [{ handle := s.issued + 1, owner := v, period := 1000 }] ∧
    s1.issued = s.issued + 1 ∧
    (s1.widgets v).interval = some (s.issued + 1) ∧
    (∀ u, u ≠ v → (s1.widgets u).interval = (s.widgets u).interval) := by
  simp only [step, mounted_eq, Except.ok.injEq] at h
  subst h
  refine ⟨?_, ?_, ?_, ?_⟩
  · simp [afterRender_timers, afterRender_issued]
  · simp [afterRender_issued]
  · simp [afterRender_issued]
  · intro u hu
    simp [Function.update_noteq hu, afterRender_interval]

theorem step_detach (parse : String → Option Int) (s s1 : Sys) (v : Nat)
    (h : step parse s (Event.detach v) = Except.ok s1) :
    s1.widgets = s.widgets ∧ s1.issued = s.issued ∧
    (s1 = s ∨ ∃ k, (s.widgets v).interval = some k ∧ k ≠ 0 ∧ s1 = clearInterval s k) := by
  simp only [step, destroyed_eq, Except.ok.injEq] at h
  subst h
  cases hi : (s.widgets v).interval with
  | none => exact ⟨rfl, rfl, Or.inl rfl⟩
  | some k =>
    by_cases hk : k = 0
    · simp [hk]
    · simp only [hk, if_false]
      exact ⟨rfl, rfl, Or.inr ⟨k, rfl, hk, rfl⟩⟩

theorem step_tick (parse : String → Option Int) (s s1 : Sys) (k : Nat)
    (h : step parse s (Event.tick k) = Except.ok s1) :
    s1 = s ∨ ∃ t ∈ s.timers, s1 = afterRender parse s t.owner := by
  simp only [step, fire_eq, Except.ok.injEq] at h
  subst h
  cases hf : s.timers.find? (fun t => t.handle == k) with
  | none => exact Or.inl rfl
  | some t => exact Or.inr ⟨t, List.mem_of_find?_eq_some hf, rfl⟩

theorem ownedTimers_step_le (parse : String → Option Int) (s s1 : Sys) (e : Event) (w : Nat)
    (h : step parse s e = Except.ok s1) :
    (ownedTimers s1 w).length
      ≤ (ownedTimers s w).length + (if e = Event.attach w then 1 else 0) := by
  cases e with
  | attach v =>
    obtain ⟨ht, -, -, -⟩ := step_attach parse s s1 v h
    unfold ownedTimers
    rw [ht, List.filter_append, List.length_append]
    by_cases hv : v = w
    · subst hv
      simp
    · have : (Event.attach v = Event.attach w) = False := by simp [hv]
      simp [this, List.filter_cons, hv]
  | externalUpdate v =>
    simp only [step, updated, updateTime_eq, Except.ok.injEq] at h
    subst h
    simp [ownedTimers_afterRender]
  | detach v =>
    obtain ⟨-, -, hs | ⟨k, -, -, hs⟩⟩ := step_detach parse s s1 v h
    · subst hs
      simp
    · subst hs
      simpa using ownedTimers_clearInterval_le s k w
  | tick k =>
    obtain hs | ⟨t, -, hs⟩ := step_tick parse s s1 k h
    · subst hs
      simp
    · subst hs
      simp [ownedTimers_afterRender]
  | advance ms =>
    simp only [step, pure, Except.pure, Except.ok.injEq] at h
    subst h
    simp [ownedTimers]
  | setTimestamp v x =>
    simp only [step, pure, Except.pure, Except.ok.injEq] at h
    subst h
    simp [ownedTimers]

theorem ownedTimers_run_le (parse : String → Option Int) (w : Nat) (es : List Event) :
    ∀ s s' : Sys, run parse s es = Except.ok s' →
      (ownedTimers s' w).length ≤ (ownedTimers s w).length + attachCount w es := by
  induction es with
  | nil =>
    intro s s' h
    simp only [run, pure, Except.pure, Except.ok.injEq] at h
    subst h
    simp
  | cons e es ih =>
    intro s s' h
    obtain ⟨s0, h0⟩ := step_total parse s e
    rw [run_cons parse s s0 e es h0] at h
    have a := ownedTimers_step_le parse s s0 e w h0
    have b := ih s0 s' h
    have c : attachCount w (e :: es)
        = attachCount w es + (if e = Event.attach w then 1 else 0) := by
      unfold attachCount
      rw [List.count_cons]
      by_cases he : e = Event.attach w <;> simp [he]
    omega

theorem ownedTimers_eq_nil_of_run (parse : String → Option Int) (w : Nat) (es : List Event)
    (s s' : Sys) (hes : Event.attach w ∉ es) (h0 : ownedTimers s w = [])
    (h : run parse s es = Except.ok s') : ownedTimers s' w = [] := by
  have b := ownedTimers_run_le parse w es s s' h
  have c : attachCount w es = 0 := List.count_eq_zero_of_not_mem hes
  rw [h0, c] at b
  exact List.length_eq_zero.mp (Nat.le_zero.mp b)

theorem not_owner_of_ownedTimers_nil (s : Sys) (w : Nat) (h0 : ownedTimers s w = [])
    (t : Timer) (ht : t ∈ s.timers) : t.owner ≠ w := by
  intro ho
  have : t ∈ ownedTimers s w := by
    unfold ownedTimers
    exact List.mem_filter.mpr ⟨ht, by simp [ho]⟩
  rw [h0] at this
  exact absurd this (List.not_mem_nil t)

theorem TimersStored_of_sub (s s1 : Sys) (w : Nat)
    (hsub : ∀ t ∈ s1.timers, t ∈ s.timers)
    (hint : (s1.widgets w).interval = (s.widgets w).interval)
    (h : TimersStored s w) : TimersStored s1 w := by
  intro t ht ho
  rw [hint]
  exact h t (hsub t ht) ho

theorem TimersStored_attach (parse : String → Option Int) (s s1 : Sys) (w : Nat)
    (h0 : ownedTimers s w = []) (h : step parse s (Event.attach w) = Except.ok s1) :
    TimersStored s1 w := by
  obtain ⟨ht, -, hi, -⟩ := step_attach parse s s1 w h
  intro t htm ho
  rw [ht, List.mem_append] at htm
  rcases htm with htm | htm
  · exact absurd ho (not_owner_of_ownedTimers_nil s w h0 t htm)
  · rw [List.mem_singleton] at htm
    subst htm
    exact ⟨Nat.succ_ne_zero _, hi⟩

theorem TimersStored_step (parse : String → Option Int) (s s1 : Sys) (e : Event) (w : Nat)
    (he : e ≠ Event.attach w) (hP : TimersStored s w)
    (h : step parse s e = Except.ok s1) : TimersStored s1 w := by
  cases e with
  | attach v =>
    have hv : w ≠ v := fun hwv => he (by rw [hwv])
    obtain ⟨ht, -, -, hi⟩ := step_attach parse s s1 v h
    intro t htm ho
    rw [ht, List.mem_append] at htm
    rw [hi w hv]
    rcases htm with htm | htm
    · exact hP t htm ho
    · rw [List.mem_singleton] at htm
      subst htm
      exact absurd ho.symm hv
  | externalUpdate v =>
    simp only [step, updated, updateTime_eq, Except.ok.injEq] at h
    subst h
    refine TimersStored_of_sub s _ w ?_ (afterRender_interval parse s v w) hP
    intro t ht
    rwa [afterRender_timers] at ht
  | detach v =>
    obtain ⟨hw, -, hs | ⟨k, -, -, hs⟩⟩ := step_detach parse s s1 v h
    · subst hs
      exact hP
    · refine TimersStored_of_sub s s1 w ?_ (by rw [hw]) hP
      intro t ht
      rw [hs] at ht
      exact (List.mem_filter.mp ht).1
  | tick k =>
    obtain hs | ⟨t, -, hs⟩ := step_tick parse s s1 k h
    · subst hs
      exact hP
    · subst hs
      refine TimersStored_of_sub s _ w ?_ (afterRender_interval parse s t.owner w) hP
      intro u hu
      rwa [afterRender_timers] at hu
  | advance ms =>
    simp only [step, pure, Except.pure, Except.ok.injEq] at h
    subst h
    exact hP
  | setTimestamp v x =>
    simp only [step, pure, Except.pure, Except.ok.injEq] at h
    subst h
    refine TimersStored_of_sub s _ w (fun t ht => ht) ?_ hP
    by_cases hv : w = v
    · subst hv
      simp
    · simp [Function.update_noteq hv]

theorem ownedTimers_nil_after_detach (parse : String → Option Int) (s s1 : Sys) (w : Nat)
    (hP : TimersStored s w) (h : step parse s (Event.detach w) = Except.ok s1) :
    ownedTimers s1 w = [] := by
  obtain ⟨-, -, hs | ⟨k, hk, -, hs⟩⟩ := step_detach parse s s1 w h
  · subst hs
    simp only [step, destroyed_eq, Except.ok.injEq] at h
    unfold ownedTimers
    rw [List.filter_eq_nil_iff]
    intro t ht ho
    have ho' : t.owner = w := by simpa using ho
    obtain ⟨hne, hi⟩ := hP t ht ho'
    rw [hi] at h
    simp only [hne, if_false] at h
    have hmem : t ∈ (clearInterval s1 t.handle).timers := by rw [h]; exact ht
    have := (List.mem_filter.mp hmem).2
    simp at this
  · subst hs
    unfold ownedTimers clearInterval
    rw [List.filter_eq_nil_iff]
    intro t ht ho
    have ho' : t.owner = w := by simpa using ho
    obtain ⟨ht1, ht2⟩ := List.mem_filter.mp ht
    obtain ⟨-, hi⟩ := hP t ht1 ho'
    rw [hk] at hi
    have : k = t.handle := Option.some.inj hi
    simp [this] at ht2

theorem passive_step_frozen (parse : String → Option Int) (s s1 : Sys) (e : Event) (w : Nat)
    (he : e.passive = true) (h0 : ownedTimers s w = [])
    (h : step parse s e = Except.ok s1) :
    ownedTimers s1 w = [] ∧ s1.widgets w = s.widgets w := by
  cases e with
  | tick k =>
    obtain hs | ⟨t, ht, hs⟩ := step_tick parse s s1 k h
    · subst hs
      exact ⟨h0, rfl⟩
    · subst hs
      have hne : w ≠ t.owner := fun hw => not_owner_of_ownedTimers_nil s w h0 t ht hw.symm
      exact ⟨by rw [ownedTimers_afterRender, h0], afterRender_other parse s t.owner w hne⟩
  | advance ms =>
    simp only [step, pure, Except.pure, Except.ok.injEq] at h
    subst h
    exact ⟨h0, rfl⟩
  | attach v => simp [Event.passive] at he
  | externalUpdate v => simp [Event.passive] at he
  | detach v => simp [Event.passive] at he
  | setTimestamp v x => simp [Event.passive] at he

theorem ownedTimers_fresh (attrs : Nat → Option String) (texts : Nat → String) (now : Int)
    (w : Nat) : ownedTimers (fresh attrs texts now) w = [] := rfl

/-- C6. On a page that starts with no instance attached, let instance `w` be
attached once, and later detached. Whatever clock advances and timer-tick
opportunities follow, the element text of `w` stays the text it had when
`destroyed` returned, and no timer of `w` is active. -/
theorem detached_text_frozen (parse : String → Option Int) (attrs : Nat → Option String)
    (texts : Nat → String) (now : Int) (w : Nat) (pre mid post : List Event)
    (hpre : Event.attach w ∉ pre) (hmid : Event.attach w ∉ mid)
    (hpost : ∀ e ∈ post, e.passive = true) :
    ∃ s1 s2,
      run parse (fresh attrs texts now)
        (pre ++ (Event.attach w :: (mid ++ [Event.detach w]))) = Except.ok s1 ∧
      run parse s1 post = Except.ok s2 ∧
      (s2.widgets w).textContent = (s1.widgets w).textContent ∧
      ownedTimers s2 w = [] := by
  obtain ⟨sa, ha⟩ := run_total parse pre (fresh attrs texts now)
  obtain ⟨sb, hb⟩ := step_total parse sa (Event.attach w)
  obtain ⟨sc, hc⟩ := run_total parse mid sb
  obtain ⟨s1, h1⟩ := step_total parse sc (Event.detach w)
  obtain ⟨s2, h2⟩ := run_total parse post s1
  have ea : ownedTimers sa w = [] :=
    ownedTimers_eq_nil_of_run parse w pre _ sa hpre (ownedTimers_fresh attrs texts now w) ha
  have eb : TimersStored sb w := TimersStored_attach parse sa sb w ea hb
  have ec : TimersStored sc w :=
    run_preserves parse (fun s => TimersStored s w) mid
      (fun a b e he hP hs =>
        TimersStored_step parse a b e w (fun h => hmid (h ▸ he)) hP hs) sb sc eb hc
  have e1 : ownedTimers s1 w = [] := ownedTimers_nil_after_detach parse sc s1 w ec h1
  have e2 : ownedTimers s2 w = [] ∧ s2.widgets w = s1.widgets w :=
    run_preserves parse (fun s => ownedTimers s w = [] ∧ s.widgets w = s1.widgets w) post
      (fun a b e he hP hs => by
        obtain ⟨q1, q2⟩ := passive_step_frozen parse a b e w (hpost e he) hP.1 hs
        exact ⟨q1, q2.trans hP.2⟩) s1 s2 ⟨e1, rfl⟩ h2
  refine ⟨s1, s2, ?_, h2, by rw [e2.2], e2.1⟩
  rw [run_append parse pre _ _ sa ha, run_cons parse sa sb _ _ hb,
    run_append parse mid _ sb sc hc, run_cons parse sc s1 _ _ h1]
  rfl

/-- An element stamped at instant 0 is attached at clock 10000, ticks once a
second later and is detached; four later tick opportunities over six more
seconds leave its text alone. -/
theorem detached_text_frozen_witness :
    Event.attach 0 ∉ ([] : List Event) ∧
    Event.attach 0 ∉ [Event.advance 1000, Event.tick 1] ∧
    (∀ e ∈ [Event.advance 1000, Event.tick 1, Event.advance 5000, Event.tick 1],
      e.passive = true) ∧
    ∃ s1 s2,
      run sampleParse (fresh (fun _ => some "1970-01-01T00:00:00.000Z") (fun _ => "") 10000)
        ([] ++ (Event.attach 0 :: ([Event.advance 1000, Event.tick 1] ++ [Event.detach 0])))
          = Except.ok s1 ∧
      run sampleParse s1 [Event.advance 1000, Event.tick 1, Event.advance 5000, Event.tick 1]
          = Except.ok s2 ∧
      (s2.widgets 0).textContent = (s1.widgets 0).textContent ∧
      ownedTimers s2 0 = [] :=
  ⟨by decide, by decide, by decide,
    detached_text_frozen sampleParse (fun _ => some "1970-01-01T00:00:00.000Z") (fun _ => "")
      10000 0 [] [Event.advance 1000, Event.tick 1]
      [Event.advance 1000, Event.tick 1, Event.advance 5000, Event.tick 1]
      (by decide) (by decide) (by decide)⟩

/-- C9, as stated, fails: after `mounted` has run twice on one instance of a
fresh page, two repeating timers created by that instance are active. -/
theorem two_timers_after_double_attach :
    ∃ s, run sampleParse (fresh (fun _ => none) (fun _ => "") 0)
        [Event.attach 0, Event.attach 0] = Except.ok s ∧
      ¬ (ownedTimers s 0).length ≤ 1 :=
  ⟨_, rfl, by decide⟩

/-- When instance `w` is attached at most once in a sequence of events run
from a fresh page, at most one repeating timer created by `w` is active at its
end. -/
theorem single_attach_one_timer (parse : String → Option Int) (attrs : Nat → Option String)
    (texts : Nat → String) (now : Int) (es : List Event) (w : Nat)
    (h : attachCount w es ≤ 1) :
    ∃ s, run parse (fresh attrs texts now) es = Except.ok s ∧
      (ownedTimers s w).length ≤ 1 := by
  obtain ⟨s, hs⟩ := run_total parse es (fresh attrs texts now)
  have b := ownedTimers_run_le parse w es _ s hs
  rw [ownedTimers_fresh] at b
  exact ⟨s, hs, by simpa using b.trans (by simpa using h)⟩

theorem ownedTimers_le_one_of_idle (parse : String → Option Int) (w : Nat) (es : List Event) :
    ∀ s s' : Sys, (ownedTimers s w).length ≤ 1 → attachOnlyIdle parse w s es = true →
      run parse s es = Except.ok s' → (ownedTimers s' w).length ≤ 1 := by
  induction es with
  | nil =>
    intro s s' hle _ h
    simp only [run, pure, Except.pure, Except.ok.injEq] at h
    subst h
    exact hle
  | cons e es ih =>
    intro s s' hle hidle h
    obtain ⟨s0, h0⟩ := step_total parse s e
    rw [run_cons parse s s0 e es h0] at h
    unfold attachOnlyIdle at hidle
    rw [h0, Bool.and_eq_true, Bool.or_eq_true] at hidle
    obtain ⟨hc, hrest⟩ := hidle
    have a := ownedTimers_step_le parse s s0 e w h0
    refine ih s0 s' ?_ hrest h
    by_cases he : e = Event.attach w
    · rcases hc with hc | hc
      · simp [he] at hc
      · have hnil : ownedTimers s w = [] := List.isEmpty_iff.mp hc
        rw [hnil, if_pos he] at a
        simpa using a
    · rw [if_neg he] at a
      omega

/-- An attach of an instance while one of its timers is active leaves at
least two of its timers active. -/
theorem attach_while_active (parse : String → Option Int) (s s1 : Sys) (w : Nat)
    (hact : ownedTimers s w ≠ []) (h : mounted parse s w = Except.ok s1) :
    2 ≤ (ownedTimers s1 w).length := by
  obtain ⟨ht, -, -, -⟩ := step_attach parse s s1 w h
  have hpos : 0 < (ownedTimers s w).length := List.length_pos.mpr hact
  have e : ownedTimers s1 w
      = ownedTimers s w ++ [{ handle := s.issued + 1, owner := w, period := 1000 }] := by
    unfold ownedTimers
    rw [ht, List.filter_append]
    simp
  rw [e, List.length_append]
  simpa using hpos

/-- C9, amended. In every state reached from a fresh page by a sequence of
attach, update, detach, tick, clock and attribute events in which instance `w`
is never attached while a timer created by `w` is active, at most one
repeating timer created by `w` is active. -/
theorem at_most_one_timer (parse : String → Option Int) (attrs : Nat → Option String)
    (texts : Nat → String) (now : Int) (es : List Event) (w : Nat)
    (h : attachOnlyIdle parse w (fresh attrs texts now) es = true) :
    ∃ s, run parse (fresh attrs texts now) es = Except.ok s ∧
      (ownedTimers s w).length ≤ 1 := by
  obtain ⟨s, hs⟩ := run_total parse es (fresh attrs texts now)
  refine ⟨s, hs, ownedTimers_le_one_of_idle parse w es _ s ?_ h hs⟩
  rw [ownedTimers_fresh]
  exact Nat.zero_le 1

/-- Attach, tick, detach, then attach again and tick: two attaches of the same
instance, each while it has no active timer, and one timer at the end. -/
theorem at_most_one_timer_witness :
    attachOnlyIdle sampleParse 0 (fresh (fun _ => none) (fun _ => "") 0)
      [Event.attach 0, Event.tick 1, Event.attach 1, Event.detach 0, Event.attach 0,
        Event.tick 3] = true ∧
    ∃ s, run sampleParse (fresh (fun _ => none) (fun _ => "") 0)
        [Event.attach 0, Event.tick 1, Event.attach 1, Event.detach 0, Event.attach 0,
          Event.tick 3] = Except.ok s ∧
      (ownedTimers s 0).length ≤ 1 :=
  ⟨by decide, at_most_one_timer sampleParse (fun _ => none) (fun _ => "") 0
    [Event.attach 0, Event.tick 1, Event.attach 1, Event.detach 0, Event.attach 0,
      Event.tick 3] 0 (by decide)⟩

/-! ## Handles and their owners -/

theorem HandlesOwned_fresh (attrs : Nat → Option String) (texts : Nat → String) (now : Int) :
    HandlesOwned (fresh attrs texts now) := by
  refine ⟨?_, ?_⟩
  · intro t ht
    exact absurd ht (List.not_mem_nil t)
  · intro w h hw
    simp [fresh] at hw

theorem HandlesOwned_of_sub (s s1 : Sys) (hsub : ∀ t ∈ s1.timers, t ∈ s.timers)
    (hiss : s1.issued = s.issued)
    (hint : ∀ v, (s1.widgets v).interval = (s.widgets v).interval)
    (h : HandlesOwned s) : HandlesOwned s1 := by
  refine ⟨?_, ?_⟩
  · intro t ht
    rw [hiss]
    exact h.1 t (hsub t ht)
  · intro w k hk
    rw [hint w] at hk
    obtain ⟨a, b⟩ := h.2 w k hk
    rw [hiss]
    exact ⟨a, fun t ht => b t (hsub t ht)⟩

theorem HandlesOwned_step (parse : String → Option Int) (s s1 : Sys) (e : Event)
    (hP : HandlesOwned s) (h : step parse s e = Except.ok s1) : HandlesOwned s1 := by
  cases e with
  | attach v =>
    obtain ⟨ht, hi, hv, ho⟩ := step_attach parse s s1 v h
    refine ⟨?_, ?_⟩
    · intro t htm
      rw [ht, List.mem_append] at htm
      rw [hi]
      rcases htm with htm | htm
      · exact Nat.le_succ_of_le (hP.1 t htm)
      · rw [List.mem_singleton] at htm
        subst htm
        exact Nat.le_refl _
    · intro w k hk
      by_cases hw : w = v
      · subst hw
        rw [hv] at hk
        have hk' : s.issued + 1 = k := Option.some.inj hk
        subst hk'
        refine ⟨by rw [hi], ?_⟩
        intro t htm hth
        rw [ht, List.mem_append] at htm
        rcases htm with htm | htm
        · have := hP.1 t htm
          omega
        · rw [List.mem_singleton] at htm
          subst htm
          rfl
      · rw [ho w hw] at hk
        obtain ⟨a, b⟩ := hP.2 w k hk
        refine ⟨by rw [hi]; exact Nat.le_succ_of_le a, ?_⟩
        intro t htm hth
        rw [ht, List.mem_append] at htm
        rcases htm with htm | htm
        · exact b t htm hth
        · rw [List.mem_singleton] at htm
          subst htm
          simp only at hth
          omega
  | externalUpdate v =>
    simp only [step, updated, updateTime_eq, Except.ok.injEq] at h
    subst h
    exact HandlesOwned_of_sub s _ (fun t ht => by rwa [afterRender_timers] at ht)
      (afterRender_issued parse s v) (afterRender_interval parse s v) hP
  | detach v =>
    obtain ⟨hw, hi, hs | ⟨k, -, -, hs⟩⟩ := step_detach parse s s1 v h
    · subst hs
      exact hP
    · refine HandlesOwned_of_sub s s1 ?_ hi (fun u => by rw [hw]) hP
      intro t ht
      rw [hs] at ht
      exact (List.mem_filter.mp ht).1
  | tick k =>
    obtain hs | ⟨t, -, hs⟩ := step_tick parse s s1 k h
    · subst hs
      exact hP
    · subst hs
      exact HandlesOwned_of_sub s _ (fun u hu => by rwa [afterRender_timers] at hu)
        (afterRender_issued parse s t.owner) (afterRender_interval parse s t.owner) hP
  | advance ms =>
    simp only [step, pure, Except.pure, Except.ok.injEq] at h
    subst h
    exact hP
  | setTimestamp v x =>
    simp only [step, pure, Except.pure, Except.ok.injEq] at h
    subst h
    refine HandlesOwned_of_sub s _ (fun t ht => ht) rfl ?_ hP
    intro u
    by_cases hu : u = v
    · subst hu
      simp
    · simp [Function.update_noteq hu]

theorem HandlesOwned_run (parse : String → Option Int) (attrs : Nat → Option String)
    (texts : Nat → String) (now : Int) (es : List Event) (s : Sys)
    (h : run parse (fresh attrs texts now) es = Except.ok s) : HandlesOwned s :=
  run_preserves parse HandlesOwned es
    (fun a b e _ hP hs => HandlesOwned_step parse a b e hP hs) _ s
    (HandlesOwned_fresh attrs texts now) h

theorem destroyed_cases (s : Sys) (w : Nat) :
    destroyed s w = Except.ok s ∨
    ∃ k, (s.widgets w).interval = some k ∧ k ≠ 0 ∧
      destroyed s w = Except.ok (clearInterval s k) := by
  rw [destroyed_eq]
  cases hi : (s.widgets w).interval with
  | none => exact Or.inl rfl
  | some k =>
    by_cases hk : k = 0
    · exact Or.inl (by simp [hk])
    · exact Or.inr ⟨k, rfl, hk, by simp [hk]⟩

theorem clearInterval_twice (s : Sys) (k : Nat) :
    clearInterval (clearInterval s k) k = clearInterval s k := by
  simp [clearInterval, List.filter_filter]

theorem ownedTimers_clearInterval_other (s : Sys) (a b k : Nat) (hab : a ≠ b)
    (hP : HandlesOwned s) (hk : (s.widgets a).interval = some k) :
    ownedTimers (clearInterval s k) b = ownedTimers s b := by
  unfold ownedTimers clearInterval
  simp only [List.filter_filter]
  apply List.filter_congr
  intro t ht
  by_cases ho : t.owner = b
  · have hne : t.handle ≠ k := by
      intro hth
      have := (hP.2 a k hk).2 t ht hth
      exact hab (this.symm.trans ho)
    simp [ho, hne]
  · simp [ho]

/-- C7. In every state reached from a fresh page, for distinct instances `a`
and `b`: `destroyed` on `a` returns, a second `destroyed` on `a` returns as
well and gives back the very state the first one produced, and `b` is not
affected: its element text, timestamp attribute and stored handle are the
same, and exactly the timers of `b` active before are active after. -/
theorem destroyed_twice (parse : String → Option Int) (attrs : Nat → Option String)
    (texts : Nat → String) (now : Int) (es : List Event) (a b : Nat) (hab : a ≠ b) :
    ∃ s s1, run parse (fresh attrs texts now) es = Except.ok s ∧
      destroyed s a = Except.ok s1 ∧
      destroyed s1 a = Except.ok s1 ∧
      s1.widgets b = s.widgets b ∧
      ownedTimers s1 b = ownedTimers s b := by
  obtain ⟨s, hs⟩ := run_total parse es (fresh attrs texts now)
  have hP := HandlesOwned_run parse attrs texts now es s hs
  rcases destroyed_cases s a with h | ⟨k, hi, hk, h⟩
  · exact ⟨s, s, hs, h, h, rfl, rfl⟩
  · refine ⟨s, clearInterval s k, hs, h, ?_, rfl,
      ownedTimers_clearInterval_other s a b k hab hP hi⟩
    have hi' : ((clearInterval s k).widgets a).interval = some k := hi
    rw [destroyed_eq, hi']
    simp only [hk, if_false]
    rw [clearInterval_twice]

/-- Two attached instances: detaching the first twice leaves the timer of the
second active. -/
theorem destroyed_twice_witness :
    (0 : Nat) ≠ 1 ∧
    ∃ s s1, run sampleParse (fresh (fun _ => none) (fun _ => "") 0)
        [Event.attach 0, Event.attach 1] = Except.ok s ∧
      destroyed s 0 = Except.ok s1 ∧
      destroyed s1 0 = Except.ok s1 ∧
      s1.widgets 1 = s.widgets 1 ∧
      ownedTimers s1 1 = ownedTimers s 1 :=
  ⟨by decide, destroyed_twice sampleParse (fun _ => none) (fun _ => "") 0
    [Event.attach 0, Event.attach 1] 0 1 (by decide)⟩

/-! ## Decimal renderings -/

theorem digitChar_value (r : Nat) (h : r < 10) :
    (Nat.digitChar r).toNat - 48 = r ∧ Nat.digitChar r ≠ '-' := by
  interval_cases r <;> decide

theorem toDigitsCore_value (fuel : Nat) :
    ∀ (n : Nat) (ds : List Char), n < fuel →
      ∃ l, Nat.toDigitsCore 10 fuel n ds = l ++ ds ∧ digitsValue l = n ∧
        ∀ c ∈ l, c ≠ '-' := by
  induction fuel with
  | zero => intro n ds h; omega
  | succ k ih =>
    intro n ds h
    obtain ⟨hv, hc⟩ := digitChar_value (n % 10) (Nat.mod_lt n (by decide))
    by_cases h0 : n / 10 = 0
    · refine ⟨[Nat.digitChar (n % 10)], by simp [Nat.toDigitsCore, h0], ?_, ?_⟩
      · simp only [digitsValue, List.foldl_cons, List.foldl_nil]
        omega
      · intro c hcm
        rw [List.mem_singleton] at hcm
        rw [hcm]
        exact hc
    · obtain ⟨l, hl, hval, hne⟩ := ih (n / 10) (Nat.digitChar (n % 10) :: ds) (by omega)
      refine ⟨l ++ [Nat.digitChar (n % 10)], by simp [Nat.toDigitsCore, h0, hl], ?_, ?_⟩
      · unfold digitsValue at hval ⊢
        rw [List.foldl_append, hval]
        simp only [List.foldl_cons, List.foldl_nil]
        omega
      · intro c hcm
        rw [List.mem_append, List.mem_singleton] at hcm
        rcases hcm with hcm | hcm
        · exact hne c hcm
        · rw [hcm]
          exact hc

theorem repr_value (n : Nat) :
    digitsValue (Nat.repr n).data = n ∧ ∀ c ∈ (Nat.repr n).data, c ≠ '-' := by
  obtain ⟨l, hl, hval, hne⟩ := toDigitsCore_value (n + 1) n [] (Nat.lt_succ_self n)
  have e : (Nat.repr n).data = l := by
    show Nat.toDigitsCore 10 (n + 1) n [] = l
    rw [hl, List.append_nil]
  rw [e]
  exact ⟨hval, hne⟩

theorem readDecimal_decimal (n : Int) : readDecimal (decimal n).data = n := by
  cases n with
  | ofNat m =>
    obtain ⟨hval, hne⟩ := repr_value m
    have e : (decimal (Int.ofNat m)).data = (Nat.repr m).data := rfl
    have hh : (Nat.repr m).data.head? ≠ some '-' := by
      intro hh
      cases hd : (Nat.repr m).data with
      | nil => rw [hd] at hh; simp at hh
      | cons c cs =>
        rw [hd] at hh
        simp only [List.head?_cons, Option.some.injEq] at hh
        exact hne c (by rw [hd]; exact List.mem_cons_self c cs) hh
    rw [e]
    unfold readDecimal
    rw [if_neg hh, hval]
    rfl
  | negSucc m =>
    obtain ⟨hval, -⟩ := repr_value (m + 1)
    have e : (decimal (Int.negSucc m)).data = '-' :: (Nat.repr (m + 1)).data := rfl
    rw [e]
    unfold readDecimal
    simp only [List.head?_cons, if_true, List.tail_cons]
    rw [hval]
    rfl

theorem decimal_injective (n k : Int) (h : decimal n = decimal k) : n = k := by
  rw [← readDecimal_decimal n, ← readDecimal_decimal k, h]

theorem append_suffix_inj (a b u v : String) (h : a ++ u = b ++ v)
    (hl : u.data.length = v.data.length) : a = b ∧ u = v := by
  rw [String.ext_iff, String.data_append, String.data_append] at h
  obtain ⟨h1, h2⟩ := List.append_inj' h hl
  exact ⟨String.ext_iff.mpr h1, String.ext_iff.mpr h2⟩

theorem fixed_ne_ago (x : String) :
    "in the future" ≠ x ++ "s ago" ∧ "in the future" ≠ x ++ "m ago" ∧
    "just now" ≠ x ++ "s ago" ∧ "just now" ≠ x ++ "m ago" ∧
    "a while ago" ≠ x ++ "s ago" ∧ "a while ago" ≠ x ++ "m ago" := by
  have e1 : "in the future" = "in the f" ++ "uture" := by decide
  have e2 : "just now" = "jus" ++ "t now" := by decide
  have e3 : "a while ago" = "a whil" ++ "e ago" := by decide
  refine ⟨?_, ?_, ?_, ?_, ?_, ?_⟩ <;> intro h
  · rw [e1] at h
    exact absurd (append_suffix_inj _ _ _ _ h rfl).2 (by decide)
  · rw [e1] at h
    exact absurd (append_suffix_inj _ _ _ _ h rfl).2 (by decide)
  · rw [e2] at h
    exact absurd (append_suffix_inj _ _ _ _ h rfl).2 (by decide)
  · rw [e2] at h
    exact absurd (append_suffix_inj _ _ _ _ h rfl).2 (by decide)
  · rw [e3] at h
    exact absurd (append_suffix_inj _ _ _ _ h rfl).2 (by decide)
  · rw [e3] at h
    exact absurd (append_suffix_inj _ _ _ _ h rfl).2 (by decide)

theorem seconds_ne_minutes (x y : String) : x ++ "s ago" ≠ y ++ "m ago" := by
  intro h
  exact absurd (append_suffix_inj _ _ _ _ h rfl).2 (by decide)

/-- The row of the table that `calculateTimeAgo` answers from, with the bounds
of the number it prints. -/
theorem calculateTimeAgo_shape (now t : Int) :
    (elapsedSeconds now t < 0 ∧ calculateTimeAgo now t = "in the future") ∨
    (0 ≤ elapsedSeconds now t ∧ calculateTimeAgo now t = "just now") ∨
    (0 ≤ elapsedSeconds now t ∧ ∃ n : Int, 5 ≤ n ∧ n ≤ 59 ∧
      calculateTimeAgo now t = decimal n ++ "s ago") ∨
    (0 ≤ elapsedSeconds now t ∧ ∃ m : Int, 1 ≤ m ∧ m ≤ 59 ∧
      calculateTimeAgo now t = decimal m ++ "m ago") ∨
    (0 ≤ elapsedSeconds now t ∧ calculateTimeAgo now t = "a while ago") := by
  rw [calculateTimeAgo_eq_tableText]
  generalize elapsedSeconds now t = d
  unfold tableText
  by_cases h0 : d < 0
  · exact Or.inl ⟨h0, by simp [h0]⟩
  · have hd : 0 ≤ d := by omega
    rw [if_neg h0]
    by_cases h1 : 0 ≤ d ∧ d < 5
    · exact Or.inr (Or.inl ⟨hd, by rw [if_pos h1]⟩)
    · rw [if_neg h1]
      by_cases h2 : 5 ≤ d ∧ d < 60
      · exact Or.inr (Or.inr (Or.inl ⟨hd, d, h2.1, by omega, by rw [if_pos h2]⟩))
      · rw [if_neg h2]
        by_cases h3 : 60 ≤ d ∧ d < 3600
        · refine Or.inr (Or.inr (Or.inr (Or.inl ⟨hd, Int.fdiv d 60, ?_, ?_, by rw [if_pos h3]⟩)))
          · rw [Int.fdiv_eq_ediv _ (by decide : (0 : Int) ≤ 60)]
            omega
          · rw [Int.fdiv_eq_ediv _ (by decide : (0 : Int) ≤ 60)]
            omega
        · exact Or.inr (Or.inr (Or.inr (Or.inr ⟨hd, by rw [if_neg h3]⟩)))

theorem elapsedSeconds_neg_iff (now t : Int) : elapsedSeconds now t < 0 ↔ now < t := by
  unfold elapsedSeconds
  rw [Int.fdiv_eq_ediv _ (by decide : (0 : Int) ≤ 1000)]
  omega

/-- C13. `calculateTimeAgo` answers "in the future" exactly when the timestamp
is strictly later than the clock; a timestamp 1 ms ahead has elapsed seconds
`-1` and reads "in the future", a timestamp equal to the clock reads
"just now". -/
theorem in_the_future_iff (now t : Int) :
    (calculateTimeAgo now t = "in the future" ↔ now < t) ∧
    elapsedSeconds now (now + 1) = -1 ∧
    calculateTimeAgo now (now + 1) = "in the future" ∧
    calculateTimeAgo now now = "just now" := by
  refine ⟨?_, ?_, ?_, ?_⟩
  · rw [← elapsedSeconds_neg_iff]
    constructor
    · intro h
      rcases calculateTimeAgo_shape now t with c | c | c | c | c
      · exact c.1
      · rw [h] at c
        exact absurd c.2 (by decide)
      · obtain ⟨-, n, -, -, e⟩ := c
        rw [h] at e
        exact absurd e (fixed_ne_ago _).1
      · obtain ⟨-, m, -, -, e⟩ := c
        rw [h] at e
        exact absurd e (fixed_ne_ago _).2.1
      · rw [h] at c
        exact absurd c.2 (by decide)
    · intro h
      rcases calculateTimeAgo_shape now t with c | c | c | c | c
      · exact c.2
      all_goals
        have := c.1
        omega
  · unfold elapsedSeconds
    rw [Int.fdiv_eq_ediv _ (by decide : (0 : Int) ≤ 1000)]
    omega
  · have h : now - (now + 1) = -1 := by omega
    unfold calculateTimeAgo
    rw [h]
    decide
  · have h : now - now = 0 := by omega
    unfold calculateTimeAgo
    rw [h]
    decide

/-- C15. The answer of `calculateTimeAgo` is "in the future", "just now",
"a while ago", a number from 5 to 59 followed by "s ago", or a number from 1
to 59 followed by "m ago". It is never "0m ago" or "60m ago", and whenever it
reads as some integer followed by "s ago" (or "m ago") that integer lies in
5..59 (in 1..59), so no value out of range and no negative number is shown. -/
theorem calculateTimeAgo_range (now t : Int) :
    (calculateTimeAgo now t = "in the future" ∨
      calculateTimeAgo now t = "just now" ∨
      calculateTimeAgo now t = "a while ago" ∨
      (∃ n : Int, 5 ≤ n ∧ n ≤ 59 ∧ calculateTimeAgo now t = decimal n ++ "s ago") ∨
      (∃ m : Int, 1 ≤ m ∧ m ≤ 59 ∧ calculateTimeAgo now t = decimal m ++ "m ago")) ∧
    calculateTimeAgo now t ≠ "0m ago" ∧
    calculateTimeAgo now t ≠ "60m ago" ∧
    (∀ n : Int, calculateTimeAgo now t = decimal n ++ "s ago" → 5 ≤ n ∧ n ≤ 59) ∧
    (∀ m : Int, calculateTimeAgo now t = decimal m ++ "m ago" → 1 ≤ m ∧ m ≤ 59) := by
  have hs : ∀ n : Int, calculateTimeAgo now t = decimal n ++ "s ago" → 5 ≤ n ∧ n ≤ 59 := by
    intro n hn
    rcases calculateTimeAgo_shape now t with c | c | c | c | c
    · rw [c.2] at hn
      exact absurd hn (fixed_ne_ago _).1
    · rw [c.2] at hn
      exact absurd hn (fixed_ne_ago _).2.2.1
    · obtain ⟨-, k, hk1, hk2, e⟩ := c
      rw [e] at hn
      have := decimal_injective _ _ (append_suffix_inj _ _ _ _ hn rfl).1
      omega
    · obtain ⟨-, k, -, -, e⟩ := c
      rw [e] at hn
      exact absurd hn.symm (seconds_ne_minutes _ _)
    · rw [c.2] at hn
      exact absurd hn (fixed_ne_ago _).2.2.2.2.1
  have hm : ∀ m : Int, calculateTimeAgo now t = decimal m ++ "m ago" → 1 ≤ m ∧ m ≤ 59 := by
    intro m hmm
    rcases calculateTimeAgo_shape now t with c | c | c | c | c
    · rw [c.2] at hmm
      exact absurd hmm (fixed_ne_ago _).2.1
    · rw [c.2] at hmm
      exact absurd hmm (fixed_ne_ago _).2.2.2.1
    · obtain ⟨-, k, -, -, e⟩ := c
      rw [e] at hmm
      exact absurd hmm (seconds_ne_minutes _ _)
    · obtain ⟨-, k, hk1, hk2, e⟩ := c
      rw [e] at hmm
      have := decimal_injective _ _ (append_suffix_inj _ _ _ _ hmm rfl).1
      omega
    · rw [c.2] at hmm
      exact absurd hmm (fixed_ne_ago _).2.2.2.2.2
  refine ⟨?_, ?_, ?_, hs, hm⟩
  · rcases calculateTimeAgo_shape now t with c | c | c | c | c
    · exact Or.inl c.2
    · exact Or.inr (Or.inl c.2)
    · exact Or.inr (Or.inr (Or.inr (Or.inl c.2)))
    · exact Or.inr (Or.inr (Or.inr (Or.inr c.2)))
    · exact Or.inr (Or.inr (Or.inl c.2))
  · intro h
    have e : "0m ago" = decimal 0 ++ "m ago" := by decide
    have := hm 0 (h.trans e)
    omega
  · intro h
    have e : "60m ago" = decimal 60 ++ "m ago" := by decide
    have := hm 60 (h.trans e)
    omega

/-! ## The timer started by `mounted` -/

theorem interval_step (parse : String → Option Int) (s s1 : Sys) (e : Event) (w : Nat)
    (he : e ≠ Event.attach w) (h : step parse s e = Except.ok s1) :
    (s1.widgets w).interval = (s.widgets w).interval := by
  cases e with
  | attach v =>
    have hv : w ≠ v := fun hwv => he (by rw [hwv])
    exact (step_attach parse s s1 v h).2.2.2 w hv
  | externalUpdate v =>
    simp only [step, updated, updateTime_eq, Except.ok.injEq] at h
    subst h
    exact afterRender_interval parse s v w
  | detach v =>
    rw [(step_detach parse s s1 v h).1]
  | tick k =>
    obtain hs | ⟨t, -, hs⟩ := step_tick parse s s1 k h
    · rw [hs]
    · rw [hs]
      exact afterRender_interval parse s t.owner w
  | advance ms =>
    simp only [step, pure, Except.pure, Except.ok.injEq] at h
    subst h
    rfl
  | setTimestamp v x =>
    simp only [step, pure, Except.pure, Except.ok.injEq] at h
    subst h
    by_cases hv : w = v
    · subst hv
      simp
    · simp [Function.update_noteq hv]

theorem find?_filter_ne (l : List Timer) (h k : Nat) (hk : k ≠ h) :
    (l.filter (fun t => t.handle != k)).find? (fun t => t.handle == h)
      = l.find? (fun t => t.handle == h) := by
  induction l with
  | nil => rfl
  | cons a l ih =>
    by_cases ha : a.handle = k
    · have hah : a.handle ≠ h := fun e => hk (ha.symm.trans e)
      simp [List.filter_cons, List.find?_cons, ha, hk, ih]
    · by_cases hah : a.handle = h
      · have hkh : ¬ h = k := fun e => hk e.symm
        simp [List.filter_cons, List.find?_cons, hah, hkh]
      · simp [List.filter_cons, List.find?_cons, ha, hah, ih]

theorem TimerActive_mem (s : Sys) (h w : Nat) (ha : TimerActive s h w) :
    ∃ t ∈ s.timers, t.handle = h ∧ t.owner = w := by
  obtain ⟨t, ht, ho⟩ := ha
  refine ⟨t, List.mem_of_find?_eq_some ht, ?_, ho⟩
  have := List.find?_some ht
  simpa using this

theorem fire_of_active (parse : String → Option Int) (s : Sys) (h w : Nat)
    (ha : TimerActive s h w) : fire parse s h = updated parse s w := by
  obtain ⟨t, ht, ho⟩ := ha
  unfold fire updated
  rw [ht]
  simp only [ho]

theorem TimerActive_step (parse : String → Option Int) (s s1 : Sys) (e : Event) (h w : Nat)
    (hP : HandlesOwned s) (ha : TimerActive s h w)
    (hd : e = Event.detach w → (s.widgets w).interval ≠ some h)
    (hs : step parse s e = Except.ok s1) : TimerActive s1 h w := by
  obtain ⟨t, ht, ho⟩ := ha
  cases e with
  | attach v =>
    obtain ⟨htm, -, -, -⟩ := step_attach parse s s1 v hs
    exact ⟨t, by rw [htm, List.find?_append, ht]; rfl, ho⟩
  | externalUpdate v =>
    simp only [step, updated, updateTime_eq, Except.ok.injEq] at hs
    subst hs
    exact ⟨t, by rw [afterRender_timers]; exact ht, ho⟩
  | detach v =>
    obtain ⟨-, -, hs1 | ⟨k, hk, -, hs1⟩⟩ := step_detach parse s s1 v hs
    · subst hs1
      exact ⟨t, ht, ho⟩
    · have hkh : k ≠ h := by
        intro e
        subst e
        have hth : t.handle = k := by simpa using List.find?_some ht
        have hov : t.owner = v := (hP.2 v k hk).2 t (List.mem_of_find?_eq_some ht) hth
        have hvw : v = w := hov.symm.trans ho
        subst hvw
        exact hd rfl hk
      refine ⟨t, ?_, ho⟩
      rw [hs1]
      show ((s.timers.filter (fun t => t.handle != k)).find? (fun t => t.handle == h)) = some t
      rw [find?_filter_ne s.timers h k hkh]
      exact ht
  | tick k =>
    obtain hs1 | ⟨u, -, hs1⟩ := step_tick parse s s1 k hs
    · subst hs1
      exact ⟨t, ht, ho⟩
    · subst hs1
      exact ⟨t, by rw [afterRender_timers]; exact ht, ho⟩
  | advance ms =>
    simp only [step, pure, Except.pure, Except.ok.injEq] at hs
    subst hs
    exact ⟨t, ht, ho⟩
  | setTimestamp v x =>
    simp only [step, pure, Except.pure, Except.ok.injEq] at hs
    subst hs
    exact ⟨t, ht, ho⟩

theorem ownedTimers_attach (parse : String → Option Int) (s s1 : Sys) (w : Nat)
    (h : step parse s (Event.attach w) = Except.ok s1) :
    ownedTimers s1 w = ownedTimers s w ++ [mountedTimer (s.issued + 1) w] := by
  obtain ⟨ht, -, -, -⟩ := step_attach parse s s1 w h
  unfold ownedTimers mountedTimer
  rw [ht, List.filter_append]
  simp

theorem ownedTimers_clearInterval (s : Sys) (k w : Nat) :
    ownedTimers (clearInterval s k) w
      = (ownedTimers s w).filter (fun t => t.handle != k) := by
  unfold ownedTimers clearInterval
  simp only [List.filter_filter]
  apply List.filter_congr
  intro t _
  exact Bool.and_comm _ _

theorem TimerActive_attach (parse : String → Option Int) (s s1 : Sys) (w : Nat)
    (hP : HandlesOwned s) (h : step parse s (Event.attach w) = Except.ok s1) :
    TimerActive s1 (s.issued + 1) w := by
  obtain ⟨ht, -, -, -⟩ := step_attach parse s s1 w h
  have hn : s.timers.find? (fun t => t.handle == s.issued + 1) = none := by
    rw [List.find?_eq_none]
    intro t htm
    have := hP.1 t htm
    simp
    omega
  refine ⟨{ handle := s.issued + 1, owner := w, period := 1000 }, ?_, rfl⟩
  rw [ht, List.find?_append, hn]
  simp

theorem fire_renders_valid (parse : String → Option Int) (s : Sys) (h w : Nat) (ts : String)
    (t : Int) (ha : TimerActive s h w) (hts : (s.widgets w).timestamp = some ts)
    (h1 : ts ≠ "") (h2 : ts ≠ "null") (h3 : ts ≠ "undefined") (hp : parse ts = some t) :
    ∃ s', fire parse s h = Except.ok s' ∧
      (s'.widgets w).textContent = tableText (elapsedSeconds s.now t) := by
  refine ⟨afterRender parse s w, ?_, ?_⟩
  · rw [fire_of_active parse s h w ha]
    exact updateTime_eq parse s w
  · simp [afterRender_valid parse s w ts t hts h1 h2 h3 hp, withText,
      calculateTimeAgo_eq_tableText]

theorem elapsed_eleven (x : Int) : tableText (elapsedSeconds (x + 1000) (x - 10000)) = "11s ago" := by
  have h : x + 1000 - (x - 10000) = 11000 := by omega
  unfold elapsedSeconds
  rw [h]
  decide

/-- C11. Let instance `w` of a fresh page be attached for the first time.
Right after `mounted` exactly one repeating timer of `w` is active, its period
is 1000 ms and its handle is the one stored on `w`. As long as `w` is not
detached, a tick of that timer is the call `updated` on `w`; for a valid
timestamp the text after the tick is the table entry of the elapsed seconds
at the clock time of the tick, and a timestamp 10 s old at attach reads
"11s ago" after the first tick 1000 ms later. -/
theorem mounted_starts_timer (parse : String → Option Int) (attrs : Nat → Option String)
    (texts : Nat → String) (now : Int) (w : Nat) (pre mid : List Event)
    (hpre : Event.attach w ∉ pre) (hmid : Event.detach w ∉ mid) :
    ∃ s0 s1 s2 h,
      run parse (fresh attrs texts now) pre = Except.ok s0 ∧
      mounted parse s0 w = Except.ok s1 ∧
      ownedTimers s1 w = [{ handle := h, owner := w, period := 1000 }] ∧
      (s1.widgets w).interval = some h ∧
      run parse s1 mid = Except.ok s2 ∧
      fire parse s2 h = updated parse s2 w ∧
      (∀ ts t, (s2.widgets w).timestamp = some ts → ts ≠ "" → ts ≠ "null" →
        ts ≠ "undefined" → parse ts = some t →
        ∃ s3, fire parse s2 h = Except.ok s3 ∧
          (s3.widgets w).textContent = tableText (elapsedSeconds s2.now t)) ∧
      (mid = [Event.advance 1000] →
        ∀ ts, (s0.widgets w).timestamp = some ts → ts ≠ "" → ts ≠ "null" →
          ts ≠ "undefined" → parse ts = some (s0.now - 10000) →
          ∃ s3, fire parse s2 h = Except.ok s3 ∧ (s3.widgets w).textContent = "11s ago") := by
  obtain ⟨s0, h0⟩ := run_total parse pre (fresh attrs texts now)
  obtain ⟨s1, h1⟩ := step_total parse s0 (Event.attach w)
  obtain ⟨s2, h2⟩ := run_total parse mid s1
  have e0 : ownedTimers s0 w = [] :=
    ownedTimers_eq_nil_of_run parse w pre _ s0 hpre (ownedTimers_fresh attrs texts now w) h0
  have p0 : HandlesOwned s0 := HandlesOwned_run parse attrs texts now pre s0 h0
  have p1 : HandlesOwned s1 := HandlesOwned_step parse s0 s1 _ p0 h1
  have a1 : TimerActive s1 (s0.issued + 1) w := TimerActive_attach parse s0 s1 w p0 h1
  have q2 : HandlesOwned s2 ∧ TimerActive s2 (s0.issued + 1) w :=
    run_preserves parse (fun s => HandlesOwned s ∧ TimerActive s (s0.issued + 1) w) mid
      (fun a b e he hP hs =>
        ⟨HandlesOwned_step parse a b e hP.1 hs,
          TimerActive_step parse a b e _ w hP.1 hP.2 (fun hd => absurd (hd ▸ he) hmid) hs⟩)
      s1 s2 ⟨p1, a1⟩ h2
  have hvalid : ∀ ts t, (s2.widgets w).timestamp = some ts → ts ≠ "" → ts ≠ "null" →
      ts ≠ "undefined" → parse ts = some t →
      ∃ s3, fire parse s2 (s0.issued + 1) = Except.ok s3 ∧
        (s3.widgets w).textContent = tableText (elapsedSeconds s2.now t) :=
    fun ts t hts c1 c2 c3 hp => fire_renders_valid parse s2 _ w ts t q2.2 hts c1 c2 c3 hp
  refine ⟨s0, s1, s2, s0.issued + 1, h0, h1, ?_, (step_attach parse s0 s1 w h1).2.2.1, h2,
    fire_of_active parse s2 _ w q2.2, hvalid, ?_⟩
  · rw [ownedTimers_attach parse s0 s1 w h1, e0]
    rfl
  · intro hm ts hts c1 c2 c3 hp
    subst hm
    have hs2 : s2 = { s1 with now := s1.now + (1000 : Nat) } := by
      simp only [run, step, pure, Except.pure, Except.ok.injEq] at h2
      exact h2.symm
    have hs1 : mounted parse s0 w = Except.ok s1 := h1
    rw [mounted_eq, Except.ok.injEq] at hs1
    have hnow : s2.now = s0.now + 1000 := by
      rw [hs2, ← hs1]
      simp [afterRender_now]
    have hts2 : (s2.widgets w).timestamp = some ts := by
      rw [hs2, ← hs1]
      simp [afterRender_timestamp, hts]
    obtain ⟨s3, f1, f2⟩ := hvalid ts _ hts2 c1 c2 c3 hp
    exact ⟨s3, f1, by rw [f2, hnow, elapsed_eleven]⟩

/-- An element stamped at instant 0 is attached at clock 10000; the tick one
second later writes "11s ago". -/
theorem mounted_starts_timer_witness :
    ∃ s1 s2 s3 h,
      mounted sampleParse
        (fresh (fun _ => some "1970-01-01T00:00:00.000Z") (fun _ => "") 10000) 0
          = Except.ok s1 ∧
      ownedTimers s1 0 = [{ handle := h, owner := 0, period := 1000 }] ∧
      (s1.widgets 0).interval = some h ∧
      run sampleParse s1 [Event.advance 1000] = Except.ok s2 ∧
      fire sampleParse s2 h = Except.ok s3 ∧
      (s3.widgets 0).textContent = "11s ago" := by
  obtain ⟨s0, s1, s2, h, h0, h1, hown, hint, h2, -, -, h11⟩ :=
    mounted_starts_timer sampleParse (fun _ => some "1970-01-01T00:00:00.000Z") (fun _ => "")
      10000 0 [] [Event.advance 1000] (by decide) (by decide)
  have e : fresh (fun _ => some "1970-01-01T00:00:00.000Z") (fun _ => "") 10000 = s0 :=
    Except.ok.inj h0
  subst e
  obtain ⟨s3, f1, f2⟩ := h11 rfl "1970-01-01T00:00:00.000Z" rfl (by decide) (by decide)
    (by decide) rfl
  exact ⟨s1, s2, s3, h, h1, hown, hint, h2, f1, f2⟩

/-! ## `destroyed` and the stored handle -/

theorem interval_none_of_run (parse : String → Option Int) (attrs : Nat → Option String)
    (texts : Nat → String) (now : Int) (es : List Event) (w : Nat) (s : Sys)
    (hes : Event.attach w ∉ es) (h : run parse (fresh attrs texts now) es = Except.ok s) :
    (s.widgets w).interval = none :=
  run_preserves parse (fun a => (a.widgets w).interval = none) es
    (fun a b e he hP hs =>
      (interval_step parse a b e w (fun c => hes (c ▸ he)) hs).trans hP)
    _ s rfl h

/-- C12. On an instance that has never been attached, `destroyed` returns
without raising and changes nothing: the element text and the stored handle
of every instance, and the active timers of every instance, are the same, and
so is the whole page. -/
theorem destroyed_without_timer (parse : String → Option Int) (attrs : Nat → Option String)
    (texts : Nat → String) (now : Int) (es : List Event) (w : Nat)
    (hes : Event.attach w ∉ es) :
    ∃ s s', run parse (fresh attrs texts now) es = Except.ok s ∧
      ownedTimers s w = [] ∧
      destroyed s w = Except.ok s' ∧
      (∀ v, (s'.widgets v).textContent = (s.widgets v).textContent ∧
        (s'.widgets v).interval = (s.widgets v).interval ∧
        ownedTimers s' v = ownedTimers s v) ∧
      s'.timers = s.timers ∧ s' = s := by
  obtain ⟨s, hs⟩ := run_total parse es (fresh attrs texts now)
  have hi := interval_none_of_run parse attrs texts now es w s hes hs
  have hd : destroyed s w = Except.ok s := by
    rw [destroyed_eq, hi]
  exact ⟨s, s, hs,
    ownedTimers_eq_nil_of_run parse w es _ s hes (ownedTimers_fresh attrs texts now w) hs,
    hd, fun _ => ⟨rfl, rfl, rfl⟩, rfl, rfl⟩

/-- Another instance is attached and ticking; detaching the instance that
never was attached changes nothing. -/
theorem destroyed_without_timer_witness :
    Event.attach 0 ∉ [Event.attach 1, Event.externalUpdate 0, Event.tick 1] ∧
    ∃ s s', run sampleParse (fresh (fun _ => none) (fun _ => "old") 0)
        [Event.attach 1, Event.externalUpdate 0, Event.tick 1] = Except.ok s ∧
      ownedTimers s 0 = [] ∧
      destroyed s 0 = Except.ok s' ∧
      (∀ v, (s'.widgets v).textContent = (s.widgets v).textContent ∧
        (s'.widgets v).interval = (s.widgets v).interval ∧
        ownedTimers s' v = ownedTimers s v) ∧
      s'.timers = s.timers ∧ s' = s :=
  ⟨by decide, destroyed_without_timer sampleParse (fun _ => none) (fun _ => "old") 0
    [Event.attach 1, Event.externalUpdate 0, Event.tick 1] 0 (by decide)⟩

theorem handles_positive_of_run (parse : String → Option Int) (attrs : Nat → Option String)
    (texts : Nat → String) (now : Int) (es : List Event) (s : Sys)
    (h : run parse (fresh attrs texts now) es = Except.ok s) :
    ∀ t ∈ s.timers, t.handle ≠ 0 := by
  refine run_preserves parse (fun a => ∀ t ∈ a.timers, t.handle ≠ 0) es ?_ _ s
    (fun t ht => absurd ht (List.not_mem_nil t)) h
  intro a b e _ hP hs t ht
  cases e with
  | attach v =>
    obtain ⟨htm, -, -, -⟩ := step_attach parse a b v hs
    rw [htm, List.mem_append, List.mem_singleton] at ht
    rcases ht with ht | ht
    · exact hP t ht
    · rw [ht]
      exact Nat.succ_ne_zero _
  | externalUpdate v =>
    simp only [step, updated, updateTime_eq, Except.ok.injEq] at hs
    subst hs
    rw [afterRender_timers] at ht
    exact hP t ht
  | detach v =>
    obtain ⟨-, -, hs1 | ⟨k, -, -, hs1⟩⟩ := step_detach parse a b v hs
    · subst hs1
      exact hP t ht
    · rw [hs1] at ht
      exact hP t (List.mem_filter.mp ht).1
  | tick k =>
    obtain hs1 | ⟨u, -, hs1⟩ := step_tick parse a b k hs
    · subst hs1
      exact hP t ht
    · subst hs1
      rw [afterRender_timers] at ht
      exact hP t ht
  | advance ms =>
    simp only [step, pure, Except.pure, Except.ok.injEq] at hs
    subst hs
    exact hP t ht
  | setTimestamp v x =>
    simp only [step, pure, Except.pure, Except.ok.injEq] at hs
    subst hs
    exact hP t ht

/-- C14, as stated, fails: after `mounted` and then `destroyed` on an instance
of a fresh page, the instance still stores the handle of the cancelled
timer. -/
theorem handle_kept_after_detach :
    ∃ s, run sampleParse (fresh (fun _ => none) (fun _ => "") 0)
        [Event.attach 0, Event.detach 0] = Except.ok s ∧
      (s.widgets 0).interval = some 1 ∧ (s.widgets 0).interval ≠ none :=
  ⟨_, rfl, rfl, by decide⟩

/-- C14, amended. On a fresh page no instance stores a handle. In every state
reached from a fresh page, `destroyed` returns and leaves the stored handle of
the instance as it was; no active timer carries that handle afterwards. -/
theorem destroyed_keeps_handle (parse : String → Option Int) (attrs : Nat → Option String)
    (texts : Nat → String) (now : Int) (es : List Event) (w : Nat) :
    ((fresh attrs texts now).widgets w).interval = none ∧
    ∃ s s', run parse (fresh attrs texts now) es = Except.ok s ∧
      destroyed s w = Except.ok s' ∧
      (s'.widgets w).interval = (s.widgets w).interval ∧
      ∀ h, (s'.widgets w).interval = some h → ∀ t ∈ s'.timers, t.handle ≠ h := by
  refine ⟨rfl, ?_⟩
  obtain ⟨s, hs⟩ := run_total parse es (fresh attrs texts now)
  have hpos := handles_positive_of_run parse attrs texts now es s hs
  rcases destroyed_cases s w with hd | ⟨k, hk, -, hd⟩
  · refine ⟨s, s, hs, hd, rfl, ?_⟩
    intro h hi t ht hth
    rw [destroyed_eq, hi] at hd
    by_cases h0 : h = 0
    · exact hpos t ht (hth.trans h0)
    · simp only [h0, if_false, Except.ok.injEq] at hd
      have hmem : t ∈ (clearInterval s h).timers := by rw [hd]; exact ht
      have := (List.mem_filter.mp hmem).2
      simp [hth] at this
  · refine ⟨s, clearInterval s k, hs, hd, rfl, ?_⟩
    intro h hi t ht hth
    have hkh : k = h := Option.some.inj (hk.symm.trans hi)
    have := (List.mem_filter.mp ht).2
    simp [hth, hkh] at this

/-! ## A second `mounted` -/

theorem leaked_step (parse : String → Option Int) (s s1 : Sys) (e : Event) (h w : Nat)
    (hP : HandlesOwned s ∧ TimerActive s h w ∧ (s.widgets w).interval ≠ some h)
    (hs : step parse s e = Except.ok s1) :
    HandlesOwned s1 ∧ TimerActive s1 h w ∧ (s1.widgets w).interval ≠ some h := by
  refine ⟨HandlesOwned_step parse s s1 e hP.1 hs,
    TimerActive_step parse s s1 e h w hP.1 hP.2.1 (fun _ => hP.2.2) hs, ?_⟩
  by_cases he : e = Event.attach w
  · subst he
    obtain ⟨-, -, hi, -⟩ := step_attach parse s s1 w hs
    obtain ⟨t, ht, hth, -⟩ := TimerActive_mem s h w hP.2.1
    have hle := hP.1.1 t ht
    rw [hi]
    intro c
    have := Option.some.inj c
    omega
  · rw [interval_step parse s s1 e w he hs]
    exact hP.2.2

/-- C16. Let instance `w` of a fresh page be attached for the first time and
then attached again. The second `mounted` starts a second timer of `w` and
stores its handle in place of the first, which stays active. The `destroyed`
that follows cancels the second timer only: the first timer of `w` is still
active, it stays active through every later sequence of events, and each of
its ticks is the call `updated` on `w`, writing the table text for a valid
timestamp. -/
theorem double_attach_leaks (parse : String → Option Int) (attrs : Nat → Option String)
    (texts : Nat → String) (now : Int) (w : Nat) (pre post : List Event)
    (hpre : Event.attach w ∉ pre) :
    ∃ s0 s1 s2 s3 s4 h1 h2,
      run parse (fresh attrs texts now) pre = Except.ok s0 ∧
      mounted parse s0 w = Except.ok s1 ∧
      mounted parse s1 w = Except.ok s2 ∧
      destroyed s2 w = Except.ok s3 ∧
      run parse s3 post = Except.ok s4 ∧
      h1 ≠ h2 ∧
      (s1.widgets w).interval = some h1 ∧
      ownedTimers s1 w = [{ handle := h1, owner := w, period := 1000 }] ∧
      (s2.widgets w).interval = some h2 ∧
      ownedTimers s2 w = [{ handle := h1, owner := w, period := 1000 },
        { handle := h2, owner := w, period := 1000 }] ∧
      ownedTimers s3 w = [{ handle := h1, owner := w, period := 1000 }] ∧
      TimerActive s4 h1 w ∧
      fire parse s4 h1 = updated parse s4 w ∧
      (∀ ts t, (s4.widgets w).timestamp = some ts → ts ≠ "" → ts ≠ "null" →
        ts ≠ "undefined" → parse ts = some t →
        ∃ s5, fire parse s4 h1 = Except.ok s5 ∧
          (s5.widgets w).textContent = tableText (elapsedSeconds s4.now t)) := by
  obtain ⟨s0, h0⟩ := run_total parse pre (fresh attrs texts now)
  obtain ⟨s1, hm1⟩ := step_total parse s0 (Event.attach w)
  obtain ⟨s2, hm2⟩ := step_total parse s1 (Event.attach w)
  obtain ⟨s3, hd3⟩ := step_total parse s2 (Event.detach w)
  obtain ⟨s4, h4⟩ := run_total parse post s3
  have e0 : ownedTimers s0 w = [] :=
    ownedTimers_eq_nil_of_run parse w pre _ s0 hpre (ownedTimers_fresh attrs texts now w) h0
  have p0 : HandlesOwned s0 := HandlesOwned_run parse attrs texts now pre s0 h0
  have p1 : HandlesOwned s1 := HandlesOwned_step parse s0 s1 _ p0 hm1
  have p2 : HandlesOwned s2 := HandlesOwned_step parse s1 s2 _ p1 hm2
  have a1 : TimerActive s1 (s0.issued + 1) w := TimerActive_attach parse s0 s1 w p0 hm1
  obtain ⟨-, hiss1, hint1, -⟩ := step_attach parse s0 s1 w hm1
  obtain ⟨-, -, hint2, -⟩ := step_attach parse s1 s2 w hm2
  have hne : s0.issued + 1 ≠ s1.issued + 1 := by omega
  have hne2 : (s2.widgets w).interval ≠ some (s0.issued + 1) := by
    rw [hint2]
    intro c
    exact hne (Option.some.inj c).symm
  have a2 : TimerActive s2 (s0.issued + 1) w :=
    TimerActive_step parse s1 s2 _ _ w p1 a1 (fun c => by cases c) hm2
  have q3 := leaked_step parse s2 s3 _ (s0.issued + 1) w ⟨p2, a2, hne2⟩ hd3
  have q4 : HandlesOwned s4 ∧ TimerActive s4 (s0.issued + 1) w ∧
      (s4.widgets w).interval ≠ some (s0.issued + 1) :=
    run_preserves parse
      (fun s => HandlesOwned s ∧ TimerActive s (s0.issued + 1) w ∧
        (s.widgets w).interval ≠ some (s0.issued + 1)) post
      (fun a b e _ hP hs => leaked_step parse a b e _ w hP hs) s3 s4 q3 h4
  have o1 : ownedTimers s1 w = [mountedTimer (s0.issued + 1) w] := by
    rw [ownedTimers_attach parse s0 s1 w hm1, e0]
    rfl
  have o2 : ownedTimers s2 w
      = [mountedTimer (s0.issued + 1) w, mountedTimer (s1.issued + 1) w] := by
    rw [ownedTimers_attach parse s1 s2 w hm2, o1]
    rfl
  have hs3 : s3 = clearInterval s2 (s1.issued + 1) := by
    have hd : destroyed s2 w = Except.ok s3 := hd3
    rw [destroyed_eq, hint2] at hd
    simp only [Nat.succ_ne_zero, if_false, Except.ok.injEq] at hd
    exact hd.symm
  have o3 : ownedTimers s3 w = [mountedTimer (s0.issued + 1) w] := by
    rw [hs3, ownedTimers_clearInterval, o2]
    simp [mountedTimer, List.filter_cons, hiss1]
  exact ⟨s0, s1, s2, s3, s4, s0.issued + 1, s1.issued + 1, h0, hm1, hm2, hd3, h4, hne, hint1,
    o1, hint2, o2, o3, q4.2.1, fire_of_active parse s4 _ w q4.2.1,
    fun ts t hts c1 c2 c3 hp => fire_renders_valid parse s4 _ w ts t q4.2.1 hts c1 c2 c3 hp⟩

/-- Attach, attach, detach on one element stamped at instant 0, then one
second passes: the first timer is still active and its tick renders. -/
theorem double_attach_leaks_witness :
    Event.attach 0 ∉ ([] : List Event) ∧
    ∃ s0 s1 s2 s3 s4 h1 h2,
      run sampleParse (fresh (fun _ => some "1970-01-01T00:00:00.000Z") (fun _ => "") 10000)
        [] = Except.ok s0 ∧
      mounted sampleParse s0 0 = Except.ok s1 ∧
      mounted sampleParse s1 0 = Except.ok s2 ∧
      destroyed s2 0 = Except.ok s3 ∧
      run sampleParse s3 [Event.advance 1000] = Except.ok s4 ∧
      h1 ≠ h2 ∧
      (s1.widgets 0).interval = some h1 ∧
      ownedTimers s1 0 = [{ handle := h1, owner := 0, period := 1000 }] ∧
      (s2.widgets 0).interval = some h2 ∧
      ownedTimers s2 0 = [{ handle := h1, owner := 0, period := 1000 },
        { handle := h2, owner := 0, period := 1000 }] ∧
      ownedTimers s3 0 = [{ handle := h1, owner := 0, period := 1000 }] ∧
      TimerActive s4 h1 0 ∧
      fire sampleParse s4 h1 = updated sampleParse s4 0 ∧
      (∀ ts t, (s4.widgets 0).timestamp = some ts → ts ≠ "" → ts ≠ "null" →
        ts ≠ "undefined" → sampleParse ts = some t →
        ∃ s5, fire sampleParse s4 h1 = Except.ok s5 ∧
          (s5.widgets 0).textContent = tableText (elapsedSeconds s4.now t)) :=
  ⟨by decide, double_attach_leaks sampleParse (fun _ => some "1970-01-01T00:00:00.000Z")
    (fun _ => "") 10000 0 [] [Event.advance 1000] (by decide)⟩

end TimeAgo
